import Mathlib

/-!
Verification of the pv4 trading bot.

This file gives a shallow embedding of the bot's core components and proves
properties about them:

* `standardize_dataframe` — `MarketDataFetcher._standardize_dataframe`
  (src/utils/data.py)
* `clean_and_prepare_data` — `DataProvider._clean_and_prepare_data`
  (src/data/provider.py)
* the resilient fetcher `MarketDataFetcher.get_bars` with its timeframe
  fallback chain (src/utils/data.py)
* the moving-average strategy `MAStrategy` (src/bot/strategy.py)
* the position sizer in `TradingBot._execute_signal` and the trading cycle
  `TradingBot._trading_cycle` (src/bot/trader.py)
* the caching provider `DataProvider.get_bars` and its shutdown path
  (src/data/provider.py)

Modelling conventions: pandas cell values are `Option ℚ` (`none` models NaN),
timestamps are integers (epoch instants), raising Python code is modelled with
`Except Unit` or `Option`, and `async` calls that are made without `await` have
no effect (the coroutine object is created and discarded without running).
-/

/-- A pandas cell value: `none` models NaN (or a non-numeric value coerced to
NaN by `pd.to_numeric(errors='coerce')`). -/
abbrev Cell := Option ℚ

/-- Shallow model of a pandas `DataFrame` holding a bar table.

`isDatetime` says whether the index is a `DatetimeIndex`; `tzAware` whether
that index carries a timezone (timestamps themselves are modelled as absolute
integer instants, so `tz_localize('UTC')` / `tz_convert('UTC')` change only the
`tzAware` flag). When `isDatetime` is false the index is a plain (integer)
index. `rows` is row-major, aligned with `cols`. -/
structure DFrame where
  isDatetime : Bool
  tzAware : Bool
  idx : List ℤ
  cols : List String
  rows : List (List Cell)
deriving DecidableEq, Repr, Inhabited

/-- Number of rows of the frame (`len(df)` in pandas). -/
def DFrame.nrows (df : DFrame) : ℕ := df.idx.length

/-- The empty frame `pd.DataFrame()`. -/
def DFrame.empty : DFrame := ⟨false, false, [], [], []⟩

/-- The required bar columns of the standardizers. -/
def requiredCols : List String := ["open", "high", "low", "close", "volume"]

/-- Position of column `c` in a column list (`df.columns.get_loc`). -/
def colPos (cols : List String) (c : String) : ℕ :=
  cols.findIdx (fun x => x = c)

/-- Read the cell of column `c` from a row laid out along `cols`. -/
def getCell (cols : List String) (row : List Cell) (c : String) : Cell :=
  row.getD (colPos cols c) none

/-- Index/row pairs of a frame. -/
def DFrame.pairs (df : DFrame) : List (ℤ × List Cell) := df.idx.zip df.rows

/-- Rebuild a frame from index/row pairs, keeping the other fields. -/
def DFrame.withPairs (df : DFrame) (ps : List (ℤ × List Cell)) : DFrame :=
  { df with idx := ps.map Prod.fst, rows := ps.map Prod.snd }

/-- Comparison used to sort rows by index label (`df.sort_index()`). -/
def pairLE (a b : ℤ × List Cell) : Prop := a.1 ≤ b.1

instance : DecidableRel pairLE := fun a b => inferInstanceAs (Decidable (a.1 ≤ b.1))

instance : IsTotal (ℤ × List Cell) pairLE := ⟨fun a b => le_total a.1 b.1⟩

instance : IsTrans (ℤ × List Cell) pairLE := ⟨fun _ _ _ h h2 => le_trans h h2⟩

/-- Sort index/row pairs ascending by index label (`df.sort_index()`). -/
def sortPairs (ps : List (ℤ × List Cell)) : List (ℤ × List Cell) :=
  ps.insertionSort pairLE

/-- Drop rows whose index label already occurred earlier
(`df[~df.index.duplicated(keep='first')]`); `seen` accumulates labels already
kept. -/
def dedupePairs : List (ℤ × List Cell) → List ℤ → List (ℤ × List Cell)
  | [], _ => []
  | p :: rest, seen =>
    if p.1 ∈ seen then dedupePairs rest seen
    else p :: dedupePairs rest (p.1 :: seen)

/-- Restrict a frame to the given columns, in that order (`df[sel]`). -/
def selectCols (df : DFrame) (sel : List String) : DFrame :=
  { df with
      cols := sel
      rows := df.rows.map (fun r => sel.map (fun c => getCell df.cols r c)) }

/-- Model of `pd.to_datetime(value, utc=True)` on a numeric cell: an integer
value parses to that instant; a fractional or NaN value is treated as a
standardization failure (the enclosing `try` returns `None`). -/
def parseTs (c : Cell) : Option ℤ :=
  match c with
  | some q => if q.den = 1 then some q.num else none
  | none => none

/-- Evaluate `parseTs` on every cell of a column, failing if any cell fails. -/
def parseTsList : List Cell → Option (List ℤ)
  | [] => some []
  | c :: rest =>
    match parseTs c, parseTsList rest with
    | some t, some ts => some (t :: ts)
    | _, _ => none

/-- `MarketDataFetcher._standardize_dataframe` (src/utils/data.py, lines
170-212).

Returns `(result, post)` where `result` is the standardized frame (or `none`
on failure, as the source returns `None`) and `post` is the state of the
caller's frame object after the call: in the `DatetimeIndex` branch the source
assigns `df.index = df.index.tz_localize('UTC')` (or `tz_convert`), mutating
the argument in place, so `post` has `tzAware := true` there; every other
operation (`reset_index`, `sort_index`, column selection, `astype`) builds new
frames and leaves the caller's object alone.

The plain-index branch models `df.reset_index()` as prepending the old index
as a column named "index" (the frame's index is unnamed and no column "index"
is assumed to pre-exist), then renames the timestamp column and re-indexes by
its parsed values. -/
def standardize_dataframe (df : DFrame) : Option DFrame × DFrame :=
  if df.isDatetime then
    -- df.index = df.index.tz_localize('UTC') / tz_convert('UTC'): in-place
    let dfA : DFrame := { df with tzAware := true }
    let sorted := dfA.withPairs (sortPairs dfA.pairs)
    if requiredCols.all (fun c => c ∈ sorted.cols) then
      (some (selectCols sorted requiredCols), dfA)
    else
      (none, dfA)
  else
    -- df = df.reset_index(): a fresh frame; the caller's object is untouched
    let cols1 : List String := "index" :: df.cols
    let rows1 : List (List Cell) :=
      df.pairs.map (fun p => (some (p.1 : ℚ)) :: p.2)
    let tsCol : String := if "timestamp" ∈ cols1 then "timestamp" else "index"
    let cols2 : List String :=
      cols1.map (fun c => if c = tsCol then "timestamp" else c)
    let tsVals : List Cell := rows1.map (fun r => getCell cols2 r "timestamp")
    match parseTsList tsVals with
    | none => (none, df)
    | some ts =>
      -- df = df.set_index('timestamp'): the column moves into the index
      let pos := colPos cols2 "timestamp"
      let cols3 := cols2.eraseIdx pos
      let rows3 := rows1.map (fun r => r.eraseIdx pos)
      let dfB : DFrame :=
        { isDatetime := true
          tzAware := true
          idx := ts
          cols := cols3
          rows := rows3 }
      let sorted := dfB.withPairs (sortPairs dfB.pairs)
      if requiredCols.all (fun c => c ∈ sorted.cols) then
        (some (selectCols sorted requiredCols), df)
      else
        (none, df)

/-- Truncation toward zero of a rational, as Python's `int()` /
`astype(np.int64)` on a float. -/
def ratTrunc (q : ℚ) : ℤ := q.num.tdiv q.den

/-- Volume conversion of `_clean_and_prepare_data`:
`pd.to_numeric(errors='coerce').fillna(0).astype(np.int64)`. -/
def volumeCell (c : Cell) : Cell :=
  match c with
  | some q => some ((ratTrunc q : ℤ) : ℚ)
  | none => some 0

/-- Replace the cell at list position `pos` of a row by `f` of it. -/
def updateAt (pos : ℕ) (f : Cell → Cell) (row : List Cell) : List Cell :=
  (List.range row.length).zipWith (fun i c => if i = pos then f c else c) row

/-- `DataProvider._clean_and_prepare_data` (src/data/provider.py, lines
122-161). The source copies the frame up front (`df = df.copy()`), so it never
mutates its argument; the embedding is therefore a plain function on frames.
`pd.to_numeric(errors='coerce')` on the price columns is the identity here
because cells are already numeric-or-NaN. -/
def clean_and_prepare_data (df : DFrame) : DFrame :=
  if df.nrows = 0 then df
  else if requiredCols.all (fun c => c ∈ df.cols) then
    -- df = df.dropna(subset=required_cols)
    let kept := df.pairs.filter
      (fun p => requiredCols.all (fun c => (getCell df.cols p.2 c).isSome))
    -- df = df[~df.index.duplicated(keep='first')]
    let deduped := dedupePairs kept []
    -- df = df.sort_index()
    let sorted := sortPairs deduped
    -- volume conversion
    let vpos := colPos df.cols "volume"
    let final := sorted.map (fun p => (p.1, updateAt vpos volumeCell p.2))
    df.withPairs final
  else
    DFrame.empty

/-- Rows surviving the `dropna` step of `_clean_and_prepare_data`; the claim's
"first occurrence wins" is stated relative to these. -/
def cleanKeptPairs (df : DFrame) : List (ℤ × List Cell) :=
  df.pairs.filter
    (fun p => requiredCols.all (fun c => (getCell df.cols p.2 c).isSome))

/-- Concrete OHLCV row used in test fixtures. -/
def row1 : List Cell := [some 1, some 2, some 3, some 4, some 5]

/-- Second concrete OHLCV row used in test fixtures. -/
def row2 : List Cell := [some 6, some 7, some 8, some 9, some 10]

/-- A timezone-aware bar table with a duplicated timestamp. -/
def stdDup : DFrame := ⟨true, true, [5, 5], requiredCols, [row1, row2]⟩

/-- The standardizer's output on `stdDup` (it keeps both rows at timestamp 5). -/
def stdDupOut : DFrame := ⟨true, true, [5, 5], requiredCols, [row1, row2]⟩

/-- A bar table with a timezone-naive `DatetimeIndex`. -/
def naiveDF : DFrame := ⟨true, false, [1, 2], requiredCols, [row1, row2]⟩

/-- A non-empty bar table missing the "close" column. -/
def missDF : DFrame := ⟨true, true, [1], ["open"], [[some 1]]⟩

/-- Trading signal dictionary (src/bot/strategy.py). Only the keys consumed by
the orchestrator are modelled; the free-form `metrics` map is omitted. A
missing key reads as `none`, matching `dict.get`. -/
structure Signal where
  action : Option String := none
  price : Option ℚ := none
  stop_loss : Option ℚ := none
  reason : Option String := none
deriving DecidableEq, Repr, Inhabited

/-- The `null_signal` dictionary of `MAStrategy.analyze`. -/
def nullSignal : Signal := { action := none }

/-- Result shape of `Strategy.get_required_data`. -/
structure DataRequirements where
  timeframe : String
  lookback_bars : ℕ
  min_required_bars : ℕ
deriving DecidableEq, Repr

/-- The moving-average crossover strategy `MAStrategy` (src/bot/strategy.py,
lines 85-234); only its window parameters carry state. -/
structure MAStrategy where
  short_window : ℕ
  long_window : ℕ
deriving DecidableEq, Repr

/-- `MAStrategy.get_required_data` (src/bot/strategy.py, lines 112-127). -/
def MAStrategy.get_required_data (st : MAStrategy) : DataRequirements :=
  { timeframe := "1H"
    lookback_bars := st.long_window + 10
    min_required_bars := st.long_window + 1 }

/-- pandas `series.rolling(window=w).mean()` at row position `i`: the mean of
the `w` values ending at `i`, undefined (NaN, here `none`) while the window is
not yet full. Requires `1 ≤ w` as pandas does. -/
def rollingMean (w : ℕ) (xs : List ℚ) (i : ℕ) : Option ℚ :=
  if w ≤ i + 1 ∧ i < xs.length ∧ 1 ≤ w then
    some (((xs.drop (i + 1 - w)).take w).sum / (w : ℚ))
  else none

/-- `MAStrategy.calculate_moving_averages` (src/bot/strategy.py, lines
129-150), restricted to the consulted `close` column: per row, the pair of
short/long rolling means (the `MA_short` / `MA_long` columns added to the
copy). Returns `None` when there are fewer than `long_window` bars. -/
def MAStrategy.calculate_moving_averages (st : MAStrategy) (closes : List ℚ) :
    Option (List (Option ℚ × Option ℚ)) :=
  if closes.length < st.long_window then none
  else
    some ((List.range closes.length).map (fun i =>
      (rollingMean st.short_window closes i, rollingMean st.long_window closes i)))

/-- The golden-cross condition of `MAStrategy.analyze`:
`prev_short_ma <= prev_long_ma and current_short_ma > current_long_ma`. -/
abbrev goldenCross (prevS prevL curS curL : ℚ) : Prop :=
  prevS ≤ prevL ∧ curL < curS

/-- The death-cross condition of `MAStrategy.analyze`:
`prev_short_ma >= prev_long_ma and current_short_ma < current_long_ma`. -/
abbrev deathCross (prevS prevL curS curL : ℚ) : Prop :=
  prevL ≤ prevS ∧ curS < curL

/-- `MAStrategy.analyze` (src/bot/strategy.py, lines 152-234): computes the
moving averages, reads the last two rows (`iloc[-1]`, `iloc[-2]`), returns the
null signal when data is short or any of the four values is NaN, and otherwise
applies the crossover rules at the latest close price. The emitted `metrics`
map and logging are not modelled. -/
def MAStrategy.analyze (st : MAStrategy) (closes : List ℚ) : Signal :=
  match st.calculate_moving_averages closes with
  | none => nullSignal
  | some mas =>
    if mas.length < 2 then nullSignal
    else
      match (mas.getD (mas.length - 1) (none, none)).1,
            (mas.getD (mas.length - 1) (none, none)).2,
            (mas.getD (mas.length - 2) (none, none)).1,
            (mas.getD (mas.length - 2) (none, none)).2 with
      | some curS, some curL, some prevS, some prevL =>
        let current_price := closes.getLastD 0
        if goldenCross prevS prevL curS curL then
          { action := some "buy"
            price := some current_price
            stop_loss := some (current_price * (95 / 100))
            reason := some "Golden Cross (Short MA crossed above Long MA)" }
        else if deathCross prevS prevL curS curL then
          { action := some "sell"
            price := some current_price
            reason := some "Death Cross (Short MA crossed below Long MA)" }
        else
          { action := none, reason := some "No crossover detected" }
      | _, _, _, _ => nullSignal

/-- Closing prices exhibiting a golden cross on the final bar. -/
def demoCloses : List ℚ := [10, 10, 10, 16]

/-- Closing prices exhibiting a death cross on the final bar. -/
def demoClosesDown : List ℚ := [10, 10, 10, 4]

/-- Python truthiness of an optional float: `None` and `0.0` are both falsy,
so `if not price` fires for a missing and for a zero value alike. -/
def pyFalsy (x : Option ℚ) : Bool :=
  match x with
  | none => true
  | some q => q = 0

/-- Local outcome of `TradingBot._execute_signal`: reject (logged, no order),
ignore (unknown action), submit a sized market buy, or close the position. -/
inductive ExecDecision where
  | reject
  | ignore
  | submitBuy (qty : ℤ)
  | closePosition
deriving DecidableEq, Repr

/-- The sizing/decision logic of `TradingBot._execute_signal` (src/bot/trader.py,
lines 201-268). Equity is read as `account_info.get("equity", 0)`; `qty` uses
Python's `int()`, i.e. truncation toward zero. The brokerage call itself and
the companion stop order are outside this decision. -/
def execute_signal_decision (accountEquity : Option ℚ) (risk_per_trade : ℚ)
    (sig : Signal) : ExecDecision :=
  match sig.action with
  | some "buy" =>
    let risk_amount := accountEquity.getD 0 * risk_per_trade
    if pyFalsy sig.price ∨ pyFalsy sig.stop_loss then ExecDecision.reject
    else
      let price := sig.price.getD 0
      let stop_loss := sig.stop_loss.getD 0
      let risk_per_share := |price - stop_loss|
      if risk_per_share ≤ 0 then ExecDecision.reject
      else
        let qty := ratTrunc (risk_amount / risk_per_share)
        if qty ≤ 0 then ExecDecision.reject
        else ExecDecision.submitBuy qty
  | some "sell" => ExecDecision.closePosition
  | some "exit" => ExecDecision.closePosition
  | _ => ExecDecision.ignore

/-- A buy signal whose stop-loss price is present but zero. -/
def zeroStopSignal : Signal :=
  { action := some "buy", price := some 100, stop_loss := some 0 }

/-- A bar-data request issued by the orchestrator to `DataProvider.get_bars`:
the keyword arguments of the call in `_fetch_data_for_symbol`. -/
structure FetchRequest where
  symbols : List String
  timeframe : String
  limit : ℕ
deriving DecidableEq, Repr

/-- External collaborators of one trading cycle, abstracted over the bar-data
type `Data`: the provider fetch (`none` models a raised exception), the
`df.empty` test, and the brokerage order-id responses (`order.get("id") if
order else None` for the market buy, respectively `close_position`). -/
structure CycleEnv (Data : Type) where
  fetch : FetchRequest → Option (List (String × Data))
  isEmpty : Data → Bool
  buyResult : String → ℤ → Option String
  closeResult : String → Option String

/-- A strategy's `analyze` capability as seen by the cycle: may raise
(`Except.error`) or return a signal dictionary or `None`. -/
abbrev StrategyFn (Data : Type) := String → Data → Except Unit (Option Signal)

/-- Python truthiness of the optional order-id string (`if order_id:`):
`None` and the empty string are falsy. -/
def pyTruthyStr (x : Option String) : Bool :=
  match x with
  | none => false
  | some s => ¬ s = ""

/-- `TradingBot._execute_signal` composed with the brokerage response: the
local decision of `execute_signal_decision` followed by the order id the
client returns (sell/exit close the position outright). -/
def execute_signal {Data : Type} (env : CycleEnv Data) (accountEquity : Option ℚ)
    (risk_per_trade : ℚ) (symbol : String) (sig : Signal) : Option String :=
  match execute_signal_decision accountEquity risk_per_trade sig with
  | ExecDecision.reject => none
  | ExecDecision.ignore => none
  | ExecDecision.submitBuy qty => env.buyResult symbol qty
  | ExecDecision.closePosition => env.closeResult symbol

/-- The request issued by `_fetch_data_for_symbol` (src/bot/trader.py, lines
173-199): one symbol, the bot-configured `self.time_frame`, and a fixed
`limit=100`. -/
def symbolRequest (time_frame : String) (symbol : String) : FetchRequest :=
  ⟨[symbol], time_frame, 100⟩

/-- `TradingBot._fetch_data_for_symbol`: fetch via the provider and extract
this symbol's frame; an exception, an empty dict or a missing key yields
`None`. -/
def fetch_data_for_symbol {Data : Type} (env : CycleEnv Data)
    (time_frame : String) (symbol : String) : Option Data :=
  match env.fetch (symbolRequest time_frame symbol) with
  | none => none
  | some data => data.lookup symbol

/-- Result of the per-symbol strategy loop: remaining slots, the orders that
came back with a truthy id (as symbol/id pairs), and whether the cycle
returned early because the slots reached zero. -/
structure StratLoopResult where
  slots : ℕ
  orders : List (String × String)
  stopped : Bool
deriving DecidableEq, Repr

/-- Inner `for strategy in self.strategies` loop of `_trading_cycle` for one
symbol: analyze (exceptions logged and skipped), execute non-`None` signals,
decrement the slot count on a truthy order id, and return early when it
reaches zero. -/
def run_strategies {Data : Type} (env : CycleEnv Data) (equity : Option ℚ)
    (rpt : ℚ) (symbol : String) (d : Data) :
    ℕ → List (StrategyFn Data) → StratLoopResult
  | slots, [] => ⟨slots, [], false⟩
  | slots, strat :: rest =>
    match strat symbol d with
    | Except.error _ => run_strategies env equity rpt symbol d slots rest
    | Except.ok none => run_strategies env equity rpt symbol d slots rest
    | Except.ok (some sig) =>
      let oid := execute_signal env equity rpt symbol sig
      if pyTruthyStr oid then
        let slots2 := slots - 1
        if slots2 = 0 then ⟨slots2, [(symbol, oid.getD "")], true⟩
        else
          let res := run_strategies env equity rpt symbol d slots2 rest
          ⟨res.slots, (symbol, oid.getD "") :: res.orders, res.stopped⟩
      else run_strategies env equity rpt symbol d slots rest

/-- Fetches issued and orders placed by a trading cycle. -/
structure CycleResult where
  fetches : List FetchRequest
  orders : List (String × String)
deriving DecidableEq, Repr

/-- Outer `for symbol in self.symbols` loop of `_trading_cycle`: skip symbols
already held, fetch (recording the request), skip on missing or empty data,
run the strategies, and stop the whole iteration when the slots reach zero. -/
def process_symbols {Data : Type} (env : CycleEnv Data) (time_frame : String)
    (positions : List String) (equity : Option ℚ) (rpt : ℚ)
    (strategies : List (StrategyFn Data)) :
    ℕ → List String → CycleResult
  | _, [] => ⟨[], []⟩
  | slots, s :: rest =>
    if s ∈ positions then
      process_symbols env time_frame positions equity rpt strategies slots rest
    else
      let req := symbolRequest time_frame s
      match fetch_data_for_symbol env time_frame s with
      | none =>
        let res := process_symbols env time_frame positions equity rpt
          strategies slots rest
        ⟨req :: res.fetches, res.orders⟩
      | some d =>
        if env.isEmpty d then
          let res := process_symbols env time_frame positions equity rpt
            strategies slots rest
          ⟨req :: res.fetches, res.orders⟩
        else
          let sl := run_strategies env equity rpt s d slots strategies
          if sl.stopped then ⟨[req], sl.orders⟩
          else
            let res := process_symbols env time_frame positions equity rpt
              strategies sl.slots rest
            ⟨req :: res.fetches, sl.orders ++ res.orders⟩

/-- `TradingBot._trading_cycle` (src/bot/trader.py, lines 121-171). The
account/position snapshots refreshed at the top of the cycle enter as the
`positions` and `equity` arguments; `available_slots = max(0, max_positions −
len(positions))` is the truncated ℕ subtraction; a zero slot count skips all
analysis. -/
def trading_cycle {Data : Type} (env : CycleEnv Data) (time_frame : String)
    (max_positions : ℕ) (risk_per_trade : ℚ) (symbols : List String)
    (strategies : List (StrategyFn Data)) (positions : List String)
    (equity : Option ℚ) : CycleResult :=
  let available_slots := max_positions - positions.length
  if available_slots = 0 then ⟨[], []⟩
  else
    process_symbols env time_frame positions equity risk_per_trade strategies
      available_slots symbols

/-- The MA strategy as a cycle strategy function: `analyze` never raises and
never returns `None` (it returns the null signal dictionary instead). -/
def maStrategyFn (st : MAStrategy) : StrategyFn (List ℚ) :=
  fun _ closes => Except.ok (some (st.analyze closes))

/-- A cycle environment whose provider always fails. -/
def failEnv : CycleEnv (List ℚ) :=
  { fetch := fun _ => none
    isEmpty := fun d => d.isEmpty
    buyResult := fun _ _ => none
    closeResult := fun _ => none }

/-- The statistics counters of `DataProvider` (src/data/provider.py). -/
structure ProviderStats where
  requests : ℕ
  cache_hits : ℕ
  failed_requests : ℕ
  last_request_time : Option ℕ
deriving DecidableEq, Repr

/-- In-memory state of a `DataProvider`: the cache and timestamp dictionaries
(modelled as association lists keyed by the cache-key string) and the stats.
Wall-clock instants are natural numbers (seconds). -/
structure ProviderState where
  cache : List (String × List (String × DFrame))
  cache_timestamps : List (String × ℕ)
  stats : ProviderStats
deriving DecidableEq, Repr

/-- `self.cache_duration = timedelta(minutes=5)`, in seconds. -/
def cache_duration : ℕ := 300

/-- `sorted(symbols)`: lexicographic string sort. -/
def sortStrings (l : List String) : List String :=
  l.insertionSort (· ≤ ·)

/-- The cache key of `DataProvider.get_bars`:
`f"{','.join(sorted(symbols))}_{timeframe}_{limit}"`. -/
def cacheKey (symbols : List String) (timeframe : String) (limit : ℕ) : String :=
  String.intercalate "," (sortStrings symbols) ++ "_" ++ timeframe ++ "_" ++
    toString limit

/-- `DataProvider._is_cache_valid` (src/data/provider.py, lines 106-120): a
key is valid while its age is strictly below the cache duration (the age
`now − ts` is truncated ℕ subtraction; the clock is monotone). -/
def is_cache_valid (st : ProviderState) (now : ℕ) (key : String) : Bool :=
  match st.cache_timestamps.lookup key with
  | none => false
  | some ts => now - ts < cache_duration

/-- Python dict assignment `d[k] = v` on an association list: replace the
existing binding or append a new one. -/
def alistInsert {β : Type} (key : String) (v : β) :
    List (String × β) → List (String × β)
  | [] => [(key, v)]
  | (k, w) :: rest =>
    if k = key then (k, v) :: rest else (k, w) :: alistInsert key v rest

/-- Outcome of one `DataProvider.get_bars` call: the returned per-symbol map,
the provider state afterwards, and whether the underlying client fetch ran. -/
structure GetBarsOutcome where
  result : List (String × DFrame)
  state : ProviderState
  clientCalled : Bool
deriving DecidableEq, Repr

/-- `DataProvider.get_bars` (src/data/provider.py, lines 45-104).
`clientResult` stands for the outcome of the single `client.get_bars` call
this invocation would make (`error` models a raised exception). On a valid
cache hit the stored object is returned as-is and only the hit counter moves;
otherwise the fetched frames are cleaned per symbol and, when caching is on
and the dict is non-empty, stored under the key with the current time. -/
def DataProvider_get_bars (st : ProviderState) (now : ℕ)
    (clientResult : Except Unit (List (String × DFrame)))
    (symbols : List String) (timeframe : String) (limit : ℕ)
    (use_cache : Bool) : GetBarsOutcome :=
  let st1 : ProviderState :=
    { st with stats := { st.stats with
        requests := st.stats.requests + 1
        last_request_time := some now } }
  let key := cacheKey symbols timeframe limit
  if use_cache ∧ (st1.cache.lookup key).isSome ∧ is_cache_valid st1 now key then
    { result := (st1.cache.lookup key).getD []
      state := { st1 with stats := { st1.stats with
        cache_hits := st1.stats.cache_hits + 1 } }
      clientCalled := false }
  else
    match clientResult with
    | Except.error _ =>
      { result := []
        state := { st1 with stats := { st1.stats with
          failed_requests := st1.stats.failed_requests + 1 } }
        clientCalled := true }
    | Except.ok data =>
      let cleaned := data.map (fun p =>
        (p.1, if p.2.nrows = 0 then p.2 else clean_and_prepare_data p.2))
      let st2 :=
        if use_cache ∧ ¬ data = [] then
          { st1 with
              cache := alistInsert key cleaned st1.cache
              cache_timestamps := alistInsert key now st1.cache_timestamps }
        else st1
      { result := cleaned, state := st2, clientCalled := true }

/-- The body of the async `DataProvider.clear_cache`, as it executes when the
coroutine is actually awaited: both dictionaries are emptied; the stats
counters persist. -/
def clear_cache_run (st : ProviderState) : ProviderState :=
  { st with cache := [], cache_timestamps := [] }

/-- `DataProvider.close` (src/data/provider.py, lines 269-273). The body runs
`self.clear_cache()` without `await`; since `clear_cache` is an `async def`,
the expression only creates a coroutine object that is discarded without ever
running (Python raises the "coroutine was never awaited" warning), so the
state is unchanged. -/
def DataProvider_close (st : ProviderState) : ProviderState := st

/-- `TradingBot._cleanup` (src/bot/trader.py, lines 317-326): awaits
`self.data_provider.close()`. -/
def TradingBot_cleanup (st : ProviderState) : ProviderState :=
  DataProvider_close st

/-- A provider state holding one cached entry for ["AAPL", "TSLA"] bars,
fetched at time 0. -/
def demoProviderState : ProviderState :=
  { cache := [(cacheKey ["AAPL", "TSLA"] "1Min" 100, [("AAPL", stdDupOut)])]
    cache_timestamps := [(cacheKey ["AAPL", "TSLA"] "1Min" 100, 0)]
    stats := ⟨1, 0, 0, some 0⟩ }

/-- A provider state with an empty cache and zeroed counters. -/
def emptyProviderState : ProviderState :=
  { cache := [], cache_timestamps := [], stats := ⟨0, 0, 0, none⟩ }

/-- Keyword arguments of one `client.get_bars` call issued by the resilient
fetcher (src/utils/data.py): `params` plus the optional pagination `end`. -/
structure FetchParams where
  limit : ℕ
  timeframe : String
  feed : Option String
  endTs : Option ℤ
deriving DecidableEq, Repr

/-- The single-symbol client consumed by `MarketDataFetcher`: `error` models a
raised exception, `ok none` a `None` return, `ok (some df)` a frame. -/
abbrev FetchClient := String → FetchParams → Except Unit (Option DFrame)

/-- `feeds_to_try = ['sip', None, 'iex']` (`None` = Alpaca's default feed). -/
def feedsToTry : List (Option String) := [some "sip", none, some "iex"]

/-- `bars_df.index.min()`; only consulted on non-empty frames. -/
def dfIdxMin (df : DFrame) : ℤ := (df.idx.min?).getD 0

/-- `pd.concat([more_bars_df, bars_df])`: rows of `a` first. The two frames
come from the same endpoint, so their columns are taken as aligned. -/
def dfConcat (a b : DFrame) : DFrame :=
  { a with idx := a.idx ++ b.idx, rows := a.rows ++ b.rows }

/-- `bars_df[~bars_df.index.duplicated(keep='first')]` on a frame. -/
def dfDedupe (df : DFrame) : DFrame := df.withPairs (dedupePairs df.pairs [])

/-- One iteration of the feed loop of `MarketDataFetcher.get_bars` for a given
feed: initial fetch, the single pagination attempt when `0 < len < lookback`
(an exception anywhere inside the `try` fails the feed), standardization, and
the sufficiency check. Returns the standardized frame when this feed satisfies
`min_required_bars`, otherwise `none` (the loop moves to the next feed). -/
def tryFeed (client : FetchClient) (symbol : String) (lookback : ℕ)
    (timeframe : String) (minRequired : ℕ) (feed : Option String) :
    Option DFrame :=
  let params : FetchParams := ⟨min 1000 lookback, timeframe, feed, none⟩
  match client symbol params with
  | Except.error _ => none
  | Except.ok none => none
  | Except.ok (some bars) =>
    if bars.nrows = 0 then none
    else
      let paged : Except Unit DFrame :=
        if bars.nrows < lookback then
          match client symbol { params with endTs := some (dfIdxMin bars) } with
          | Except.error _ => Except.error ()
          | Except.ok none => Except.ok bars
          | Except.ok (some more) =>
            Except.ok
              (if more.nrows = 0 then bars else dfDedupe (dfConcat more bars))
        else Except.ok bars
      match paged with
      | Except.error _ => none
      | Except.ok df =>
        if df.nrows = 0 then none
        else
          match (standardize_dataframe df).1 with
          | none => none
          | some std => if minRequired ≤ std.nrows then some std else none

/-- The `for feed in feeds_to_try` loop: first feed to satisfy the minimum
wins. -/
def tryFeedList (client : FetchClient) (symbol : String) (lookback : ℕ)
    (timeframe : String) (minRequired : ℕ) :
    List (Option String) → Option DFrame
  | [] => none
  | f :: rest =>
    match tryFeed client symbol lookback timeframe minRequired f with
    | some df => some df
    | none => tryFeedList client symbol lookback timeframe minRequired rest

/-- The `fallbacks` table of `_try_timeframe_fallbacks`, with
`fallbacks.get(timeframe, [])` semantics for unknown timeframes. -/
def fallbacks (timeframe : String) : List String :=
  if timeframe = "1Min" then ["2Min", "5Min", "15Min", "1H", "1D"]
  else if timeframe = "2Min" then ["5Min", "15Min", "1H", "1D"]
  else if timeframe = "5Min" then ["15Min", "1H", "1D"]
  else if timeframe = "15Min" then ["30Min", "1H", "1D"]
  else if timeframe = "30Min" then ["1H", "1D"]
  else if timeframe = "1H" then ["1D"]
  else []

/-- Position of a timeframe in the degradation chain
1Min → 2Min → 5Min → 15Min → 30Min → 1H → 1D (7 = not in the chain). -/
def chainIdx (tf : String) : ℕ :=
  if tf = "1Min" then 0
  else if tf = "2Min" then 1
  else if tf = "5Min" then 2
  else if tf = "15Min" then 3
  else if tf = "30Min" then 4
  else if tf = "1H" then 5
  else if tf = "1D" then 6
  else 7

/-- Termination measure of the fetcher recursion: the remaining chain depth,
plus one for the pending daily reduced-size retry. -/
def fetchWeight (lookback : ℕ) (timeframe : String) : ℕ :=
  (7 - chainIdx timeframe) * 2 + (if 100 < lookback then 1 else 0)

/-- `min_required_bars = min_required_bars or lookback_bars`: Python `or`
treats `None` and `0` alike. -/
def effMinRequired (m : Option ℕ) (lookback : ℕ) : ℕ :=
  match m with
  | none => lookback
  | some v => if v = 0 then lookback else v

/-- Result of a fetcher call plus the timeframes attempted, in order (the
instrumentation mirrors the `timeframe_fallback` diagnostic events the source
emits). -/
structure FetchOutcome where
  result : Option DFrame
  attempted : List String
deriving DecidableEq, Repr

mutual

/-- `MarketDataFetcher.get_bars` (src/utils/data.py, lines 36-168): resolve
the effective minimum, run the feed loop, and on total failure hand over to
the timeframe fallbacks. The stats dictionary and log events are not
modelled; `attempted` records each timeframe tried. -/
def MarketDataFetcher_get_bars (client : FetchClient) (symbol : String)
    (lookback : ℕ) (timeframe : String) (minRequired? : Option ℕ) :
    FetchOutcome :=
  let minRequired := effMinRequired minRequired? lookback
  match tryFeedList client symbol lookback timeframe minRequired feedsToTry with
  | some df => ⟨some df, [timeframe]⟩
  | none =>
    let rest := try_timeframe_fallbacks client symbol lookback timeframe
      minRequired
    ⟨rest.result, timeframe :: rest.attempted⟩
termination_by 2 * fetchWeight lookback timeframe + 1
decreasing_by
  omega

/-- `MarketDataFetcher._try_timeframe_fallbacks` (src/utils/data.py, lines
214-291): recurse on the next coarser timeframe when the table has one;
otherwise, for the daily timeframe with `lookback_bars > 100`, retry once with
the request size reduced to `min(100, min_required_bars)`; otherwise give
up. -/
def try_timeframe_fallbacks (client : FetchClient) (symbol : String)
    (lookback : ℕ) (timeframe : String) (minRequired : ℕ) : FetchOutcome :=
  match h : fallbacks timeframe with
  | [] =>
    if timeframe = "1D" ∧ 100 < lookback then
      MarketDataFetcher_get_bars client symbol (min 100 minRequired) timeframe
        (some minRequired)
    else ⟨none, []⟩
  | next :: _ =>
    MarketDataFetcher_get_bars client symbol lookback next (some minRequired)
termination_by 2 * fetchWeight lookback timeframe
decreasing_by
  · rename_i hcond
    obtain ⟨htf, hlb⟩ := hcond
    subst htf
    have h6 : chainIdx "1D" = 6 := by decide
    simp only [fetchWeight, h6]
    have hmin : ¬ 100 < min 100 minRequired := by omega
    rw [if_pos hlb, if_neg hmin]
    omega
  · have hh : chainIdx timeframe < chainIdx next ∧ chainIdx next ≤ 6 := by
      unfold fallbacks at h
      split_ifs at h with h1 h2 h3 h4 h5 h6
      · subst h1; injection h with hx _; subst hx; decide
      · subst h2; injection h with hx _; subst hx; decide
      · subst h3; injection h with hx _; subst hx; decide
      · subst h4; injection h with hx _; subst hx; decide
      · subst h5; injection h with hx _; subst hx; decide
      · subst h6; injection h with hx _; subst hx; decide
    simp only [fetchWeight]
    omega

end

/-- A client that always raises. -/
def oracleFail : FetchClient := fun _ _ => Except.error ()

/-- The degradation chain of timeframes, finest first. -/
def chainList : List String :=
  ["1Min", "2Min", "5Min", "15Min", "30Min", "1H", "1D"]

-- ======================================================================
-- Theorems
-- ======================================================================

theorem sortPairs_sorted (ps : List (ℤ × List Cell)) :
    (sortPairs ps).Sorted pairLE :=
  List.sorted_insertionSort pairLE ps

theorem sortPairs_perm (ps : List (ℤ × List Cell)) : List.Perm (sortPairs ps) ps :=
  List.perm_insertionSort pairLE ps

theorem sortPairs_fst_sorted (ps : List (ℤ × List Cell)) :
    ((sortPairs ps).map Prod.fst).Sorted (· ≤ ·) :=
  List.Pairwise.map Prod.fst (fun _ _ h => h) (sortPairs_sorted ps)

theorem dedupePairs_sublist (l : List (ℤ × List Cell)) (seen : List ℤ) :
    (dedupePairs l seen).Sublist l := by
  induction l generalizing seen with
  | nil => simp [dedupePairs]
  | cons p rest ih =>
    simp only [dedupePairs]
    split
    · exact (ih seen).trans (List.sublist_cons_self p rest)
    · exact (ih (p.1 :: seen)).cons₂ p

theorem dedupePairs_fst_not_mem_seen {l : List (ℤ × List Cell)} {seen : List ℤ}
    {t : ℤ} (h : t ∈ (dedupePairs l seen).map Prod.fst) : t ∉ seen := by
  induction l generalizing seen with
  | nil => simp [dedupePairs] at h
  | cons p rest ih =>
    simp only [dedupePairs] at h
    split at h
    · exact ih h
    · rcases List.mem_map.mp h with ⟨q, hq, rfl⟩
      rcases List.mem_cons.mp hq with rfl | hq2
      · assumption
      · have := ih (List.mem_map_of_mem Prod.fst hq2)
        exact fun hmem => this (List.mem_cons_of_mem _ hmem)

theorem dedupePairs_fst_nodup (l : List (ℤ × List Cell)) (seen : List ℤ) :
    ((dedupePairs l seen).map Prod.fst).Nodup := by
  induction l generalizing seen with
  | nil => simp [dedupePairs]
  | cons p rest ih =>
    simp only [dedupePairs]
    split
    · exact ih seen
    · simp only [List.map_cons, List.nodup_cons]
      refine ⟨fun hmem => ?_, ih (p.1 :: seen)⟩
      exact dedupePairs_fst_not_mem_seen hmem (List.mem_cons_self _ _)

theorem dedupePairs_lookup (l : List (ℤ × List Cell)) (seen : List ℤ) (t : ℤ)
    (ht : t ∉ seen) : (dedupePairs l seen).lookup t = l.lookup t := by
  induction l generalizing seen with
  | nil => rfl
  | cons p rest ih =>
    obtain ⟨pt, pr⟩ := p
    simp only [dedupePairs]
    by_cases hp : pt ∈ seen
    · rw [if_pos hp, ih seen ht]
      have hne : (t == pt) = false := by
        simp only [beq_eq_false_iff_ne, ne_eq]
        rintro rfl; exact ht hp
      simp [List.lookup, hne]
    · rw [if_neg hp]
      by_cases htp : t = pt
      · subst htp; simp [List.lookup]
      · have hne : (t == pt) = false := by simp [htp]
        simp only [List.lookup, hne]
        exact ih (pt :: seen) (by simp [ht, htp])

theorem lookup_eq_of_mem_of_nodup {l : List (ℤ × List Cell)} {t : ℤ}
    {r : List Cell} (h : (t, r) ∈ l) (hn : (l.map Prod.fst).Nodup) :
    l.lookup t = some r := by
  induction l with
  | nil => cases h
  | cons p rest ih =>
    obtain ⟨pt, pr⟩ := p
    simp only [List.map_cons, List.nodup_cons] at hn
    rcases List.mem_cons.mp h with heq | hmem
    · cases heq
      simp [List.lookup]
    · have hne : t ≠ pt := by
        rintro rfl
        exact hn.1 (List.mem_map_of_mem Prod.fst hmem)
      have hb : (t == pt) = false := by simp [hne]
      simp only [List.lookup, hb]
      exact ih hmem hn.2

theorem withPairs_pairs (df : DFrame) (ps : List (ℤ × List Cell)) :
    (df.withPairs ps).pairs = ps := by
  simp only [DFrame.withPairs, DFrame.pairs]
  induction ps with
  | nil => rfl
  | cons p rest ih => simp [ih]

theorem withPairs_idx (df : DFrame) (ps : List (ℤ × List Cell)) :
    (df.withPairs ps).idx = ps.map Prod.fst := rfl

theorem requiredCols_ne_ts {c : String} (hc : c ∈ requiredCols) :
    c ≠ "timestamp" ∧ c ≠ "index" := by
  fin_cases hc <;> exact ⟨by decide, by decide⟩

theorem clean_main_eq (df : DFrame) (h0 : ¬ df.nrows = 0)
    (hall : requiredCols.all (fun c => c ∈ df.cols) = true) :
    clean_and_prepare_data df =
      df.withPairs ((sortPairs (dedupePairs (cleanKeptPairs df) [])).map
        (fun p => (p.1, updateAt (colPos df.cols "volume") volumeCell p.2))) := by
  simp only [clean_and_prepare_data, cleanKeptPairs]
  rw [if_neg h0, if_pos hall]

theorem clean_fail_eq (df : DFrame) (h0 : ¬ df.nrows = 0)
    (hall : ¬ requiredCols.all (fun c => c ∈ df.cols) = true) :
    clean_and_prepare_data df = DFrame.empty := by
  simp only [clean_and_prepare_data]
  rw [if_neg h0, if_neg hall]

theorem map_fst_map_pair {g : List Cell → List Cell}
    (l : List (ℤ × List Cell)) :
    (l.map (fun p => (p.1, g p.2))).map Prod.fst = l.map Prod.fst := by
  induction l with
  | nil => rfl
  | cons p rest ih => simp [ih]

theorem clean_idx_props (df : DFrame) :
    (clean_and_prepare_data df).idx.Sorted (· ≤ ·) ∧
    (clean_and_prepare_data df).idx.Nodup ∧
    (clean_and_prepare_data df).nrows ≤ df.nrows := by
  by_cases h0 : df.nrows = 0
  · have hidx : df.idx = [] := List.length_eq_zero.mp h0
    simp only [clean_and_prepare_data, if_pos h0]
    simp [hidx, DFrame.nrows]
  · by_cases hall : requiredCols.all (fun c => c ∈ df.cols) = true
    · rw [clean_main_eq df h0 hall]
      rw [withPairs_idx, map_fst_map_pair]
      refine ⟨sortPairs_fst_sorted _, ?_, ?_⟩
      · have hperm :=
          (sortPairs_perm (dedupePairs (cleanKeptPairs df) [])).map Prod.fst
        exact hperm.nodup_iff.mpr (dedupePairs_fst_nodup _ _)
      · have h1 : (sortPairs (dedupePairs (cleanKeptPairs df) [])).length =
            (dedupePairs (cleanKeptPairs df) []).length :=
          (sortPairs_perm _).length_eq
        have h2 : (dedupePairs (cleanKeptPairs df) []).length ≤
            (cleanKeptPairs df).length :=
          (dedupePairs_sublist _ _).length_le
        have h3 : (cleanKeptPairs df).length ≤ df.pairs.length :=
          List.length_filter_le _ _
        have h4 : df.pairs.length ≤ df.idx.length := by
          simp only [DFrame.pairs, List.length_zip]
          exact min_le_left _ _
        simp only [DFrame.nrows, withPairs_idx, List.length_map, h1]
        omega
    · rw [clean_fail_eq df h0 hall]
      simp [DFrame.empty, DFrame.nrows]

theorem parseTsList_length {cs : List Cell} {ts : List ℤ}
    (h : parseTsList cs = some ts) : ts.length = cs.length := by
  induction cs generalizing ts with
  | nil => simp [parseTsList] at h; subst h; rfl
  | cons c rest ih =>
    simp only [parseTsList] at h
    cases hpc : parseTs c with
    | none => rw [hpc] at h; simp at h
    | some t =>
      rw [hpc] at h
      cases hpl : parseTsList rest with
      | none => rw [hpl] at h; simp at h
      | some ts2 =>
        rw [hpl] at h
        simp only [Option.some.injEq] at h
        subst h
        simp [ih hpl]

theorem select_sort_props (X : DFrame) :
    (selectCols (X.withPairs (sortPairs X.pairs)) requiredCols).idx.Sorted (· ≤ ·) ∧
    (selectCols (X.withPairs (sortPairs X.pairs)) requiredCols).nrows = X.pairs.length := by
  constructor
  · exact sortPairs_fst_sorted _
  · simp only [selectCols, DFrame.nrows, withPairs_idx, List.length_map]
    exact (sortPairs_perm _).length_eq

theorem standardize_some_props (df : DFrame) (out : DFrame)
    (h : (standardize_dataframe df).1 = some out) :
    out.idx.Sorted (· ≤ ·) ∧ out.nrows ≤ df.nrows := by
  unfold standardize_dataframe at h
  split at h
  · -- DatetimeIndex branch
    dsimp only at h
    split at h
    · obtain rfl := Option.some.inj h
      refine ⟨(select_sort_props _).1, ?_⟩
      rw [(select_sort_props _).2]
      simp only [DFrame.pairs, List.length_zip, DFrame.nrows]
      exact min_le_left _ _
    · exact Option.noConfusion h
  · -- plain-index branch
    dsimp only at h
    split at h
    · exact Option.noConfusion h
    · rename_i ts hts
      split at h <;> split at h <;>
        first
          | exact Option.noConfusion h
          | (obtain rfl := Option.some.inj h
             refine ⟨(select_sort_props _).1, ?_⟩
             rw [(select_sort_props _).2]
             have hl := parseTsList_length hts
             simp only [List.length_map] at hl
             simp only [DFrame.pairs, List.length_zip, List.length_map,
               DFrame.nrows] at hl ⊢
             omega)

theorem standardize_missing_none (df : DFrame) (c : String)
    (hc : c ∈ requiredCols) (hncol : c ∉ df.cols) :
    (standardize_dataframe df).1 = none := by
  obtain ⟨hcts, hcidx⟩ := requiredCols_ne_ts hc
  unfold standardize_dataframe
  split
  · dsimp only
    split
    · rename_i hall
      exact absurd (of_decide_eq_true (List.all_eq_true.mp hall c hc)) hncol
    · rfl
  · dsimp only
    split
    · rfl
    · split <;> split <;>
        first
          | rfl
          | (rename_i hall
             exfalso
             have hmem := of_decide_eq_true (List.all_eq_true.mp hall c hc)
             simp only [DFrame.withPairs] at hmem
             have hmem2 := (List.eraseIdx_sublist _ _).subset hmem
             rcases List.mem_map.mp hmem2 with ⟨x, hx, hxe⟩
             split at hxe
             · exact hcts hxe.symm
             · subst hxe
               rcases List.mem_cons.mp hx with heq | hx2
               · exact hcidx heq
               · exact hncol hx2)

theorem clean_first_wins (df : DFrame) (t : ℤ) (r : List Cell)
    (hmem : (t, r) ∈ (clean_and_prepare_data df).pairs)
    (h0 : ¬ df.nrows = 0)
    (hall : requiredCols.all (fun c => c ∈ df.cols) = true) :
    ∃ r0, (cleanKeptPairs df).lookup t = some r0 ∧
      r = updateAt (colPos df.cols "volume") volumeCell r0 := by
  rw [clean_main_eq df h0 hall, withPairs_pairs] at hmem
  rcases List.mem_map.mp hmem with ⟨p, hp, hpe⟩
  have hp2 : p ∈ dedupePairs (cleanKeptPairs df) [] :=
    (sortPairs_perm _).subset hp
  obtain ⟨pt, pr⟩ := p
  obtain ⟨rfl, rfl⟩ : pt = t ∧ updateAt (colPos df.cols "volume") volumeCell pr = r :=
    ⟨congrArg Prod.fst hpe, congrArg Prod.snd hpe⟩
  refine ⟨pr, ?_, rfl⟩
  rw [← dedupePairs_lookup (cleanKeptPairs df) [] pt (by simp)]
  exact lookup_eq_of_mem_of_nodup hp2 (dedupePairs_fst_nodup _ _)

/-- C6 (amended): for every input table holding all required OHLCV columns and
a usable timestamp, the provider's cleaner output is sorted ascending by
timestamp, has no duplicate timestamps (among the rows surviving the NaN drop,
the first occurrence wins) and is no longer than the input; the fetcher's
standardizer output is sorted ascending by timestamp and no longer than the
input, but it does not remove duplicate timestamps; an input missing any
required column yields the failure result (empty frame, respectively `None`)
with no partial output. -/
theorem C6_standardizer_properties :
    (∀ df : DFrame,
      (clean_and_prepare_data df).idx.Sorted (· ≤ ·) ∧
      (clean_and_prepare_data df).idx.Nodup ∧
      (clean_and_prepare_data df).nrows ≤ df.nrows)
    ∧ (∀ (df : DFrame) (t : ℤ) (r : List Cell),
        (t, r) ∈ (clean_and_prepare_data df).pairs → ¬ df.nrows = 0 →
        requiredCols.all (fun c => c ∈ df.cols) = true →
        ∃ r0, (cleanKeptPairs df).lookup t = some r0 ∧
          r = updateAt (colPos df.cols "volume") volumeCell r0)
    ∧ (∀ (df : DFrame) (c : String), c ∈ requiredCols → c ∉ df.cols →
        ¬ df.nrows = 0 → clean_and_prepare_data df = DFrame.empty)
    ∧ (∀ (df out : DFrame), (standardize_dataframe df).1 = some out →
        out.idx.Sorted (· ≤ ·) ∧ out.nrows ≤ df.nrows)
    ∧ (∀ (df : DFrame) (c : String), c ∈ requiredCols → c ∉ df.cols →
        (standardize_dataframe df).1 = none) := by
  refine ⟨clean_idx_props, clean_first_wins, ?_, standardize_some_props,
    standardize_missing_none⟩
  intro df c hc hncol h0
  apply clean_fail_eq df h0
  intro hall
  exact hncol (of_decide_eq_true (List.all_eq_true.mp hall c hc))

/-- Witness for C6: concrete instances of the hypothesized conjuncts — the
cleaner's first-wins/dedup behaviour on a duplicated-timestamp table, and the
failure behaviour of both functions on a table missing the "close" column. -/
theorem C6_standardizer_properties_witness :
    (∃ r0, (cleanKeptPairs stdDup).lookup 5 = some r0 ∧
      row1 = updateAt (colPos stdDup.cols "volume") volumeCell r0)
    ∧ clean_and_prepare_data missDF = DFrame.empty
    ∧ (standardize_dataframe missDF).1 = none :=
  ⟨C6_standardizer_properties.2.1 stdDup 5 row1 (by decide) (by decide)
      (by decide),
   C6_standardizer_properties.2.2.1 missDF "close" (by decide) (by decide)
      (by decide),
   C6_standardizer_properties.2.2.2.2 missDF "close" (by decide) (by decide)⟩

/-- C6 counterexample to the claim as stated: `stdDup` holds every required
column and a usable (timezone-aware) timestamp index with timestamp 5
duplicated, and the fetcher's standardizer returns it with both rows and the
duplicate timestamps intact — the claimed "no duplicate timestamps (first
occurrence wins)" fails for `_standardize_dataframe`. -/
theorem C6_counterexample :
    (standardize_dataframe stdDup).1 = some stdDupOut ∧
    stdDupOut.idx = [5, 5] ∧ ¬ stdDupOut.idx.Nodup := by
  refine ⟨by decide, rfl, by decide⟩

/-- C7: the fetcher's standardizer mutates the caller's table. On a
timezone-naive `DatetimeIndex` input the source executes
`df.index = df.index.tz_localize('UTC')`, rebinding the index of the very
object the caller passed in, so after the call the caller's table no longer
equals its pre-call value — contradicting the no-mutation contract. -/
theorem C7_standardize_mutates_input :
    (standardize_dataframe naiveDF).2 ≠ naiveDF ∧
    naiveDF.tzAware = false ∧ (standardize_dataframe naiveDF).2.tzAware = true := by
  refine ⟨by decide, rfl, by decide⟩

theorem calc_eq (st : MAStrategy) (closes : List ℚ)
    (h : ¬ closes.length < st.long_window) :
    st.calculate_moving_averages closes =
      some ((List.range closes.length).map (fun i =>
        (rollingMean st.short_window closes i, rollingMean st.long_window closes i))) := by
  simp [MAStrategy.calculate_moving_averages, h]

theorem range_map_getD {α : Type} (f : ℕ → α) (n i : ℕ) (hi : i < n) (d : α) :
    ((List.range n).map f).getD i d = f i := by
  rw [List.getD_eq_getElem?_getD, List.getElem?_map, List.getElem?_range hi]
  rfl

theorem analyze_eq_crossover (st : MAStrategy) (closes : List ℚ)
    (h : ¬ closes.length < st.long_window) (h2 : 2 ≤ closes.length)
    (curS curL prevS prevL : ℚ)
    (hcs : rollingMean st.short_window closes (closes.length - 1) = some curS)
    (hcl : rollingMean st.long_window closes (closes.length - 1) = some curL)
    (hps : rollingMean st.short_window closes (closes.length - 2) = some prevS)
    (hpl : rollingMean st.long_window closes (closes.length - 2) = some prevL) :
    st.analyze closes =
      (if goldenCross prevS prevL curS curL then
        { action := some "buy"
          price := some (closes.getLastD 0)
          stop_loss := some (closes.getLastD 0 * (95 / 100))
          reason := some "Golden Cross (Short MA crossed above Long MA)" }
      else if deathCross prevS prevL curS curL then
        { action := some "sell"
          price := some (closes.getLastD 0)
          reason := some "Death Cross (Short MA crossed below Long MA)" }
      else { action := none, reason := some "No crossover detected" }) := by
  have h2n : ¬ closes.length < 2 := by omega
  simp only [MAStrategy.analyze, calc_eq st closes h, List.length_map,
    List.length_range,
    range_map_getD _ _ _ (by omega : closes.length - 1 < closes.length),
    range_map_getD _ _ _ (by omega : closes.length - 2 < closes.length),
    hcs, hcl, hps, hpl, h2n, if_false]

/-- C4: for every bar series, a golden cross between the last two rows (previous
short mean ≤ previous long mean, current short mean > current long mean) makes
`analyze` return action "buy" at the latest close with a stop-loss of 0.95 ×
that close; a death cross returns "sell" with no stop-loss; with fewer than
`long_window` bars, or when any of the four mean values is undefined, the
no-signal action is returned; and the two crossover rules are mutually
exclusive at any single evaluation. -/
theorem C4_ma_crossover :
    (∀ (st : MAStrategy) (closes : List ℚ) (curS curL prevS prevL : ℚ),
      ¬ closes.length < st.long_window → 2 ≤ closes.length →
      rollingMean st.short_window closes (closes.length - 1) = some curS →
      rollingMean st.long_window closes (closes.length - 1) = some curL →
      rollingMean st.short_window closes (closes.length - 2) = some prevS →
      rollingMean st.long_window closes (closes.length - 2) = some prevL →
      (goldenCross prevS prevL curS curL →
        (st.analyze closes).action = some "buy" ∧
        (st.analyze closes).price = some (closes.getLastD 0) ∧
        (st.analyze closes).stop_loss = some (closes.getLastD 0 * (95 / 100))) ∧
      (deathCross prevS prevL curS curL →
        (st.analyze closes).action = some "sell" ∧
        (st.analyze closes).price = some (closes.getLastD 0) ∧
        (st.analyze closes).stop_loss = none))
    ∧ (∀ (st : MAStrategy) (closes : List ℚ),
        closes.length < st.long_window → st.analyze closes = nullSignal)
    ∧ (∀ (st : MAStrategy) (closes : List ℚ),
        ¬ closes.length < st.long_window → 2 ≤ closes.length →
        (rollingMean st.short_window closes (closes.length - 1) = none ∨
         rollingMean st.long_window closes (closes.length - 1) = none ∨
         rollingMean st.short_window closes (closes.length - 2) = none ∨
         rollingMean st.long_window closes (closes.length - 2) = none) →
        st.analyze closes = nullSignal)
    ∧ (∀ prevS prevL curS curL : ℚ,
        ¬ (goldenCross prevS prevL curS curL ∧ deathCross prevS prevL curS curL)) := by
  refine ⟨?_, ?_, ?_, ?_⟩
  · intro st closes curS curL prevS prevL h h2 hcs hcl hps hpl
    have heq := analyze_eq_crossover st closes h h2 curS curL prevS prevL hcs hcl hps hpl
    constructor
    · intro hgc
      rw [heq, if_pos hgc]
      exact ⟨rfl, rfl, rfl⟩
    · intro hdc
      have hng : ¬ goldenCross prevS prevL curS curL := fun hg =>
        lt_asymm hg.2 hdc.2
      rw [heq, if_neg hng, if_pos hdc]
      exact ⟨rfl, rfl, rfl⟩
  · intro st closes hlt
    simp [MAStrategy.analyze, MAStrategy.calculate_moving_averages, hlt]
  · intro st closes h h2 hnone
    have h2n : ¬ closes.length < 2 := by omega
    cases hA : rollingMean st.short_window closes (closes.length - 1) <;>
      cases hB : rollingMean st.long_window closes (closes.length - 1) <;>
        cases hC : rollingMean st.short_window closes (closes.length - 2) <;>
          cases hD : rollingMean st.long_window closes (closes.length - 2) <;>
            simp only [MAStrategy.analyze, calc_eq st closes h, List.length_map,
              List.length_range,
              range_map_getD _ _ _ (by omega : closes.length - 1 < closes.length),
              range_map_getD _ _ _ (by omega : closes.length - 2 < closes.length),
              hA, hB, hC, hD, h2n, if_false]
    all_goals simp_all
  · intro prevS prevL curS curL hboth
    exact lt_asymm hboth.1.2 hboth.2.2

/-- Witness for C4: concrete golden-cross, death-cross and too-short series for
the 2/3-window strategy. -/
theorem C4_ma_crossover_witness :
    (MAStrategy.analyze ⟨2, 3⟩ demoCloses).action = some "buy" ∧
    (MAStrategy.analyze ⟨2, 3⟩ demoCloses).price = some 16 ∧
    (MAStrategy.analyze ⟨2, 3⟩ demoCloses).stop_loss = some (16 * (95 / 100)) ∧
    (MAStrategy.analyze ⟨2, 3⟩ demoClosesDown).action = some "sell" ∧
    (MAStrategy.analyze ⟨2, 3⟩ demoClosesDown).stop_loss = none ∧
    MAStrategy.analyze ⟨2, 3⟩ [10, 10] = nullSignal := by
  have hbuy := ((C4_ma_crossover.1 ⟨2, 3⟩ demoCloses 13 12 10 10 (by decide)
    (by decide)
    (by norm_num [rollingMean, demoCloses])
    (by norm_num [rollingMean, demoCloses])
    (by norm_num [rollingMean, demoCloses])
    (by norm_num [rollingMean, demoCloses])).1
      (by constructor <;> norm_num))
  have hsell := ((C4_ma_crossover.1 ⟨2, 3⟩ demoClosesDown 7 8 10 10 (by decide)
    (by decide)
    (by norm_num [rollingMean, demoClosesDown])
    (by norm_num [rollingMean, demoClosesDown])
    (by norm_num [rollingMean, demoClosesDown])
    (by norm_num [rollingMean, demoClosesDown])).2
      (by constructor <;> norm_num))
  have hshort := C4_ma_crossover.2.1 ⟨2, 3⟩ [10, 10] (by decide)
  exact ⟨hbuy.1, hbuy.2.1, hbuy.2.2, hsell.1, hsell.2.2, hshort⟩

theorem exec_reject_falsy (equity : Option ℚ) (rpt : ℚ) (p s : Option ℚ)
    (r : Option String) (h : pyFalsy p = true ∨ pyFalsy s = true) :
    execute_signal_decision equity rpt ⟨some "buy", p, s, r⟩ =
      ExecDecision.reject := by
  simp only [execute_signal_decision]
  rw [if_pos h]

theorem exec_reject_rps (equity : Option ℚ) (rpt p s : ℚ) (r : Option String)
    (hp : ¬ p = 0) (hs : ¬ s = 0) (hrps : |p - s| ≤ 0) :
    execute_signal_decision equity rpt ⟨some "buy", some p, some s, r⟩ =
      ExecDecision.reject := by
  simp only [execute_signal_decision, pyFalsy, Option.getD_some]
  rw [if_neg (by simp [hp, hs]), if_pos hrps]

theorem exec_reject_qty (equity : Option ℚ) (rpt p s : ℚ) (r : Option String)
    (hp : ¬ p = 0) (hs : ¬ s = 0) (hrps : ¬ |p - s| ≤ 0)
    (hq : ratTrunc (equity.getD 0 * rpt / |p - s|) ≤ 0) :
    execute_signal_decision equity rpt ⟨some "buy", some p, some s, r⟩ =
      ExecDecision.reject := by
  simp only [execute_signal_decision, pyFalsy, Option.getD_some]
  rw [if_neg (by simp [hp, hs]), if_neg hrps, if_pos hq]

theorem exec_submit (equity : Option ℚ) (rpt p s : ℚ) (r : Option String)
    (hp : ¬ p = 0) (hs : ¬ s = 0) (hrps : ¬ |p - s| ≤ 0)
    (hq : ¬ ratTrunc (equity.getD 0 * rpt / |p - s|) ≤ 0) :
    execute_signal_decision equity rpt ⟨some "buy", some p, some s, r⟩ =
      ExecDecision.submitBuy (ratTrunc (equity.getD 0 * rpt / |p - s|)) := by
  simp only [execute_signal_decision, pyFalsy, Option.getD_some]
  rw [if_neg (by simp [hp, hs]), if_neg hrps, if_neg hq]

/-- C5 counterexample to the claim as stated: equity 10000, risk fraction
0.02, entry 100, stop-loss 0. Entry and stop-loss are both present,
risk-per-share is 100 > 0 and floor(200 / 100) = 2 > 0, so the claim's
"otherwise submits a market buy for quantity floor(risk_amount /
risk_per_share)" requires a 2-share order — but the code's
`if not price or not stop_loss` treats the zero stop-loss as falsy and
rejects with no order. -/
theorem C5_counterexample :
    execute_signal_decision (some 10000) (2 / 100) zeroStopSignal =
      ExecDecision.reject ∧
    zeroStopSignal.price = some 100 ∧ zeroStopSignal.stop_loss = some 0 ∧
    ¬ |(100 : ℚ) - 0| ≤ 0 ∧
    ratTrunc ((10000 : ℚ) * (2 / 100) / |(100 : ℚ) - 0|) = 2 := by
  refine ⟨by decide, rfl, rfl, by norm_num, ?_⟩
  have harg : (10000 : ℚ) * (2 / 100) / |(100 : ℚ) - 0| = 2 := by norm_num
  rw [harg]
  decide

/-- C5 (amended): for every buy signal the sizer computes
`risk_amount = equity × risk_fraction` and `risk_per_share = |entry − stop|`;
it rejects with no order when entry or stop-loss is missing **or zero**
(Python falsiness), when risk-per-share ≤ 0, or when the truncated quantity
`int(risk_amount / risk_per_share)` is ≤ 0, and otherwise submits a market buy
for that quantity; equity 10000, risk fraction 0.02, entry 100, stop 95 gives
quantity 40. -/
theorem C5_position_sizer :
    (∀ (equity : Option ℚ) (rpt : ℚ) (p s : Option ℚ) (r : Option String),
      pyFalsy p = true ∨ pyFalsy s = true →
      execute_signal_decision equity rpt ⟨some "buy", p, s, r⟩ =
        ExecDecision.reject)
    ∧ (∀ (equity : Option ℚ) (rpt p s : ℚ) (r : Option String),
        ¬ p = 0 → ¬ s = 0 → |p - s| ≤ 0 →
        execute_signal_decision equity rpt ⟨some "buy", some p, some s, r⟩ =
          ExecDecision.reject)
    ∧ (∀ (equity : Option ℚ) (rpt p s : ℚ) (r : Option String),
        ¬ p = 0 → ¬ s = 0 → ¬ |p - s| ≤ 0 →
        ratTrunc (equity.getD 0 * rpt / |p - s|) ≤ 0 →
        execute_signal_decision equity rpt ⟨some "buy", some p, some s, r⟩ =
          ExecDecision.reject)
    ∧ (∀ (equity : Option ℚ) (rpt p s : ℚ) (r : Option String),
        ¬ p = 0 → ¬ s = 0 → ¬ |p - s| ≤ 0 →
        ¬ ratTrunc (equity.getD 0 * rpt / |p - s|) ≤ 0 →
        execute_signal_decision equity rpt ⟨some "buy", some p, some s, r⟩ =
          ExecDecision.submitBuy (ratTrunc (equity.getD 0 * rpt / |p - s|)))
    ∧ execute_signal_decision (some 10000) (2 / 100)
        ⟨some "buy", some 100, some 95, none⟩ = ExecDecision.submitBuy 40 := by
  refine ⟨exec_reject_falsy, exec_reject_rps, exec_reject_qty, exec_submit, ?_⟩
  have h40 : (Option.getD (some (10000 : ℚ)) 0 * (2 / 100) /
      |(100 : ℚ) - 95|) = 40 := by norm_num
  have hq : ¬ ratTrunc (Option.getD (some (10000 : ℚ)) 0 * (2 / 100) /
      |(100 : ℚ) - 95|) ≤ 0 := by rw [h40]; decide
  rw [exec_submit (some 10000) (2 / 100) 100 95 none (by norm_num)
    (by norm_num) (by norm_num) hq, h40]
  decide

/-- Witness for C5: a rejected signal with a missing price and the claim's own
concrete 40-share example. -/
theorem C5_position_sizer_witness :
    execute_signal_decision (some 10000) (2 / 100)
      ⟨some "buy", none, some 95, none⟩ = ExecDecision.reject ∧
    execute_signal_decision (some 10000) (2 / 100)
      ⟨some "buy", some 100, some 95, none⟩ = ExecDecision.submitBuy 40 := by
  refine ⟨C5_position_sizer.1 (some 10000) (2 / 100) none (some 95) none
    (Or.inl rfl), C5_position_sizer.2.2.2.2⟩

theorem run_strategies_invariant {Data : Type} (env : CycleEnv Data)
    (equity : Option ℚ) (rpt : ℚ) (symbol : String) (d : Data)
    (strategies : List (StrategyFn Data)) (slots : ℕ) (h : 1 ≤ slots) :
    (run_strategies env equity rpt symbol d slots strategies).orders.length +
      (run_strategies env equity rpt symbol d slots strategies).slots = slots ∧
    ((run_strategies env equity rpt symbol d slots strategies).stopped = false →
      1 ≤ (run_strategies env equity rpt symbol d slots strategies).slots) := by
  induction strategies generalizing slots with
  | nil => simpa [run_strategies] using h
  | cons strat rest ih =>
    simp only [run_strategies]
    cases hs : strat symbol d with
    | error e => exact ih slots h
    | ok osig =>
      cases osig with
      | none => exact ih slots h
      | some sig =>
        dsimp only
        by_cases ht : pyTruthyStr (execute_signal env equity rpt symbol sig) = true
        · rw [if_pos ht]
          by_cases hz : slots - 1 = 0
          · rw [if_pos hz]
            refine ⟨by simp; omega, by simp⟩
          · rw [if_neg hz]
            have hres := ih (slots - 1) (by omega)
            refine ⟨?_, ?_⟩
            · simp only [List.length_cons]
              omega
            · intro hstp
              simp only at hstp
              exact hres.2 hstp
        · rw [if_neg ht]
          exact ih slots h

theorem process_symbols_orders_le {Data : Type} (env : CycleEnv Data)
    (tf : String) (positions : List String) (equity : Option ℚ) (rpt : ℚ)
    (strategies : List (StrategyFn Data)) (symbols : List String) :
    ∀ slots : ℕ, 1 ≤ slots →
    (process_symbols env tf positions equity rpt strategies slots
      symbols).orders.length ≤ slots := by
  induction symbols with
  | nil =>
    intro slots _
    simp [process_symbols]
  | cons s rest ih =>
    intro slots h
    simp only [process_symbols]
    by_cases hpos : s ∈ positions
    · rw [if_pos hpos]; exact ih slots h
    · rw [if_neg hpos]
      cases hf : fetch_data_for_symbol env tf s with
      | none => dsimp only; exact ih slots h
      | some d =>
        dsimp only
        by_cases he : env.isEmpty d = true
        · rw [if_pos he]; exact ih slots h
        · rw [if_neg he]
          have hinv := run_strategies_invariant env equity rpt s d strategies slots h
          by_cases hstop :
            (run_strategies env equity rpt s d slots strategies).stopped = true
          · rw [if_pos hstop]
            dsimp only
            omega
          · rw [if_neg hstop]
            dsimp only
            have h2 := ih (run_strategies env equity rpt s d slots strategies).slots
              (hinv.2 (by simpa using hstop))
            simp only [List.length_append]
            omega

/-- C3: with the position snapshot already at or above `max_positions` the
cycle issues no fetch (no analysis) and no order; in general the number of
orders a single cycle places never exceeds
`max(0, max_positions − starting position count)` — each truthy order
decrements the slot count and the iteration stops when it reaches zero. -/
theorem C3_position_cap :
    (∀ (Data : Type) (env : CycleEnv Data) (tf : String) (maxp : ℕ) (rpt : ℚ)
        (symbols : List String) (strategies : List (StrategyFn Data))
        (positions : List String) (equity : Option ℚ),
      maxp ≤ positions.length →
      trading_cycle env tf maxp rpt symbols strategies positions equity =
        ⟨[], []⟩)
    ∧ (∀ (Data : Type) (env : CycleEnv Data) (tf : String) (maxp : ℕ) (rpt : ℚ)
        (symbols : List String) (strategies : List (StrategyFn Data))
        (positions : List String) (equity : Option ℚ),
      (trading_cycle env tf maxp rpt symbols strategies positions
          equity).orders.length ≤ maxp - positions.length) := by
  constructor
  · intro Data env tf maxp rpt symbols strategies positions equity hfull
    simp [trading_cycle, Nat.sub_eq_zero_of_le hfull]
  · intro Data env tf maxp rpt symbols strategies positions equity
    by_cases hz : maxp - positions.length = 0
    · simp [trading_cycle, hz]
    · simp only [trading_cycle, if_neg hz]
      exact process_symbols_orders_le env tf positions equity rpt strategies
        symbols _ (by omega)

/-- Witness for C3: with `max_positions = 2` and two open positions the cycle
does nothing. -/
theorem C3_position_cap_witness :
    trading_cycle failEnv "1Min" 2 (2 / 100) ["X"] [maStrategyFn ⟨20, 50⟩]
      ["A", "B"] none = ⟨[], []⟩ :=
  C3_position_cap.1 (List ℚ) failEnv "1Min" 2 (2 / 100) ["X"]
    [maStrategyFn ⟨20, 50⟩] ["A", "B"] none (by decide)

theorem process_symbols_fetches {Data : Type} (env : CycleEnv Data)
    (tf : String) (positions : List String) (equity : Option ℚ) (rpt : ℚ)
    (strategies : List (StrategyFn Data)) (symbols : List String) :
    ∀ (slots : ℕ) (req : FetchRequest),
    req ∈ (process_symbols env tf positions equity rpt strategies slots
      symbols).fetches →
    ∃ s, req = symbolRequest tf s ∧ s ∈ symbols ∧ s ∉ positions := by
  induction symbols with
  | nil =>
    intro slots req hmem
    simp [process_symbols] at hmem
  | cons s rest ih =>
    intro slots req hmem
    simp only [process_symbols] at hmem
    by_cases hpos : s ∈ positions
    · rw [if_pos hpos] at hmem
      obtain ⟨s2, h1, h2, h3⟩ := ih slots req hmem
      exact ⟨s2, h1, List.mem_cons_of_mem s h2, h3⟩
    · rw [if_neg hpos] at hmem
      split at hmem <;> (try split at hmem) <;> (try split at hmem) <;>
        (simp only [List.mem_cons, List.mem_singleton, List.not_mem_nil,
           or_false] at hmem
         first
           | (rcases hmem with rfl | hmem2
              · exact ⟨s, rfl, List.mem_cons_self s rest, hpos⟩
              · obtain ⟨s2, h1, h2, h3⟩ := ih _ req hmem2
                exact ⟨s2, h1, List.mem_cons_of_mem s h2, h3⟩)
           | (subst hmem
              exact ⟨s, rfl, List.mem_cons_self s rest, hpos⟩))

theorem process_symbols_skip {Data : Type} (env : CycleEnv Data)
    (tf : String) (positions : List String) (equity : Option ℚ) (rpt : ℚ)
    (strategies : List (StrategyFn Data)) (s : String)
    (hs : ∀ d, fetch_data_for_symbol env tf s = some d → env.isEmpty d = true) :
    ∀ (l1 l2 : List String) (slots : ℕ),
    (process_symbols env tf positions equity rpt strategies slots
      (l1 ++ s :: l2)).orders =
    (process_symbols env tf positions equity rpt strategies slots
      (l1 ++ l2)).orders := by
  intro l1
  induction l1 with
  | nil =>
    intro l2 slots
    simp only [List.nil_append, process_symbols]
    by_cases hpos : s ∈ positions
    · rw [if_pos hpos]
    · rw [if_neg hpos]
      cases hf : fetch_data_for_symbol env tf s with
      | none => rfl
      | some d =>
        have he := hs d hf
        dsimp only
        rw [if_pos he]
  | cons s1 rest ih =>
    intro l2 slots
    simp only [List.cons_append, process_symbols]
    by_cases hpos : s1 ∈ positions
    · simp only [if_pos hpos]
      exact ih l2 slots
    · simp only [if_neg hpos]
      cases hf : fetch_data_for_symbol env tf s1 with
      | none =>
        dsimp only
        exact ih l2 slots
      | some d =>
        dsimp only
        by_cases he : env.isEmpty d = true
        · simp only [if_pos he]
          exact ih l2 slots
        · simp only [if_neg he]
          by_cases hstop :
            (run_strategies env equity rpt s1 d slots strategies).stopped = true
          · simp only [if_pos hstop]
          · simp only [if_neg hstop]
            congr 1
            exact ih l2 (run_strategies env equity rpt s1 d slots strategies).slots

/-- C1 counterexample to the claim as stated: a cycle run with bot timeframe
"1Min" and the default 20/50 MA strategy issues exactly one provider request,
for ["AAPL"] at timeframe "1Min" with limit 100 — not the "1H" timeframe and
60-bar lookback declared by the strategy's `get_required_data`, which the
orchestrator never consults (nor does it use the resilient
`MarketDataFetcher`). -/
theorem C1_counterexample :
    trading_cycle failEnv "1Min" 5 (2 / 100) ["AAPL"] [maStrategyFn ⟨20, 50⟩]
      [] (some 10000) = ⟨[⟨["AAPL"], "1Min", 100⟩], []⟩ ∧
    (MAStrategy.get_required_data ⟨20, 50⟩).timeframe = "1H" ∧
    (MAStrategy.get_required_data ⟨20, 50⟩).lookback_bars = 60 ∧
    ("1Min" : String) ≠ "1H" ∧ (100 : ℕ) ≠ 60 := by
  refine ⟨by decide, rfl, rfl, by decide, by decide⟩

/-- C1 (amended): in every trading cycle, each data request the orchestrator
issues goes to the cached data provider with a single symbol that is tracked
and not already in an open position, the bot-configured timeframe and a fixed
100-bar limit (the strategy's `get_required_data` is not consulted); and a
symbol whose fetch fails or returns empty is skipped for the cycle — the
cycle's orders are the same as those of the cycle run without that symbol. -/
theorem C1_fetch_and_skip :
    (∀ (Data : Type) (env : CycleEnv Data) (tf : String) (maxp : ℕ) (rpt : ℚ)
        (symbols : List String) (strategies : List (StrategyFn Data))
        (positions : List String) (equity : Option ℚ) (req : FetchRequest),
      req ∈ (trading_cycle env tf maxp rpt symbols strategies positions
        equity).fetches →
      req.timeframe = tf ∧ req.limit = 100 ∧
      ∃ s, req = symbolRequest tf s ∧ s ∈ symbols ∧ s ∉ positions)
    ∧ (∀ (Data : Type) (env : CycleEnv Data) (tf : String) (maxp : ℕ) (rpt : ℚ)
        (strategies : List (StrategyFn Data)) (positions : List String)
        (equity : Option ℚ) (s : String) (l1 l2 : List String),
      (∀ d, fetch_data_for_symbol env tf s = some d → env.isEmpty d = true) →
      (trading_cycle env tf maxp rpt (l1 ++ s :: l2) strategies positions
        equity).orders =
      (trading_cycle env tf maxp rpt (l1 ++ l2) strategies positions
        equity).orders) := by
  constructor
  · intro Data env tf maxp rpt symbols strategies positions equity req hmem
    simp only [trading_cycle] at hmem
    split at hmem
    · simp at hmem
    · obtain ⟨s, hreq, hsym, hpos⟩ :=
        process_symbols_fetches env tf positions equity rpt strategies symbols
          _ req hmem
      subst hreq
      exact ⟨rfl, rfl, s, rfl, hsym, hpos⟩
  · intro Data env tf maxp rpt strategies positions equity s l1 l2 hs
    simp only [trading_cycle]
    split
    · rfl
    · exact process_symbols_skip env tf positions equity rpt strategies s hs
        l1 l2 _

/-- Witness for C1: the single request of the counterexample cycle has the
bot's timeframe and 100-bar limit, and dropping a symbol whose fetch fails
("AAPL" under the always-failing provider) leaves the cycle's orders
unchanged. -/
theorem C1_fetch_and_skip_witness :
    ((⟨["AAPL"], "1Min", 100⟩ : FetchRequest).timeframe = "1Min" ∧
      (⟨["AAPL"], "1Min", 100⟩ : FetchRequest).limit = 100 ∧
      ∃ s, (⟨["AAPL"], "1Min", 100⟩ : FetchRequest) = symbolRequest "1Min" s ∧
        s ∈ ["AAPL", "TSLA"] ∧ s ∉ ([] : List String))
    ∧ (trading_cycle failEnv "1Min" 5 (2 / 100) (["TSLA"] ++ "AAPL" :: [])
        [maStrategyFn ⟨20, 50⟩] [] (some 10000)).orders =
      (trading_cycle failEnv "1Min" 5 (2 / 100) (["TSLA"] ++ [])
        [maStrategyFn ⟨20, 50⟩] [] (some 10000)).orders := by
  constructor
  · exact C1_fetch_and_skip.1 (List ℚ) failEnv "1Min" 5 (2 / 100)
      ["AAPL", "TSLA"] [maStrategyFn ⟨20, 50⟩] [] (some 10000)
      ⟨["AAPL"], "1Min", 100⟩ (by decide)
  · exact C1_fetch_and_skip.2 (List ℚ) failEnv "1Min" 5 (2 / 100)
      [maStrategyFn ⟨20, 50⟩] [] (some 10000) "AAPL" ["TSLA"] []
      (fun _ hd => nomatch hd)

theorem sortStrings_perm_eq {l1 l2 : List String} (h : List.Perm l1 l2) :
    sortStrings l1 = sortStrings l2 := by
  unfold sortStrings
  exact List.eq_of_perm_of_sorted
    ((List.perm_insertionSort (· ≤ ·) l1).trans
      (h.trans (List.perm_insertionSort (· ≤ ·) l2).symm))
    (List.sorted_insertionSort (· ≤ ·) l1)
    (List.sorted_insertionSort (· ≤ ·) l2)

theorem cacheKey_perm {l1 l2 : List String} (h : List.Perm l1 l2)
    (tf : String) (lim : ℕ) : cacheKey l1 tf lim = cacheKey l2 tf lim := by
  unfold cacheKey
  rw [sortStrings_perm_eq h]

theorem alistInsert_lookup {β : Type} (key : String) (v : β)
    (l : List (String × β)) : (alistInsert key v l).lookup key = some v := by
  induction l with
  | nil => simp [alistInsert, List.lookup]
  | cons p rest ih =>
    obtain ⟨k1, w⟩ := p
    simp only [alistInsert]
    by_cases hk : k1 = key
    · subst hk
      simp [List.lookup]
    · rw [if_neg hk]
      have hne : (key == k1) = false := by
        simp only [beq_eq_false_iff_ne, ne_eq]
        exact fun he => hk he.symm
      simp only [List.lookup, hne]
      exact ih

theorem get_bars_hit (st : ProviderState) (now : ℕ)
    (cr : Except Unit (List (String × DFrame))) (symbols : List String)
    (tf : String) (lim : ℕ) (v : List (String × DFrame)) (ts : ℕ)
    (hv : st.cache.lookup (cacheKey symbols tf lim) = some v)
    (hts : st.cache_timestamps.lookup (cacheKey symbols tf lim) = some ts)
    (hage : now - ts < cache_duration) :
    DataProvider_get_bars st now cr symbols tf lim true =
      { result := v
        state :=
          { cache := st.cache
            cache_timestamps := st.cache_timestamps
            stats :=
              { requests := st.stats.requests + 1
                cache_hits := st.stats.cache_hits + 1
                failed_requests := st.stats.failed_requests
                last_request_time := some now } }
        clientCalled := false } := by
  simp only [DataProvider_get_bars]
  rw [if_pos ⟨trivial, by simp [hv], by simp [is_cache_valid, hts, hage]⟩]
  simp [hv]

theorem get_bars_store (st : ProviderState) (now : ℕ)
    (data : List (String × DFrame)) (symbols : List String) (tf : String)
    (lim : ℕ)
    (hmiss : st.cache.lookup (cacheKey symbols tf lim) = none ∨
      is_cache_valid st now (cacheKey symbols tf lim) = false) :
    (DataProvider_get_bars st now (Except.ok data) symbols tf lim
      true).clientCalled = true ∧
    (¬ data = [] →
      (DataProvider_get_bars st now (Except.ok data) symbols tf lim
        true).state.cache.lookup (cacheKey symbols tf lim) =
        some (data.map (fun p =>
          (p.1, if p.2.nrows = 0 then p.2 else clean_and_prepare_data p.2))) ∧
      (DataProvider_get_bars st now (Except.ok data) symbols tf lim
        true).state.cache_timestamps.lookup (cacheKey symbols tf lim) =
        some now) := by
  simp only [DataProvider_get_bars]
  rw [if_neg (by
    rintro ⟨-, h1, h2⟩
    rcases hmiss with hm | hm
    · have h1b : (st.cache.lookup (cacheKey symbols tf lim)).isSome = true := h1
      rw [hm] at h1b
      simp at h1b
    · have h2b : is_cache_valid st now (cacheKey symbols tf lim) = true := h2
      rw [hm] at h2b
      simp at h2b)]
  refine ⟨rfl, fun hdata => ?_⟩
  rw [if_pos ⟨trivial, hdata⟩]
  exact ⟨alistInsert_lookup _ _ _, alistInsert_lookup _ _ _⟩

/-- C8: a fetch with an identical key (symbols in any order) while the stored
entry's age is below the 5-minute TTL returns the stored object without
calling the client and increments the hit counter exactly once; a fetch whose
entry is absent or no longer valid calls the client, and a successful
non-empty result replaces the entry under the key with the fresh
timestamp. -/
theorem C8_cache_ttl :
    (∀ (st : ProviderState) (now : ℕ)
        (cr : Except Unit (List (String × DFrame)))
        (symbols1 symbols2 : List String) (tf : String) (lim : ℕ)
        (v : List (String × DFrame)) (ts : ℕ),
      List.Perm symbols2 symbols1 →
      st.cache.lookup (cacheKey symbols1 tf lim) = some v →
      st.cache_timestamps.lookup (cacheKey symbols1 tf lim) = some ts →
      now - ts < cache_duration →
      (DataProvider_get_bars st now cr symbols2 tf lim true).result = v ∧
      (DataProvider_get_bars st now cr symbols2 tf lim true).clientCalled
        = false ∧
      (DataProvider_get_bars st now cr symbols2 tf lim
        true).state.stats.cache_hits = st.stats.cache_hits + 1 ∧
      (DataProvider_get_bars st now cr symbols2 tf lim true).state.cache
        = st.cache ∧
      (DataProvider_get_bars st now cr symbols2 tf lim
        true).state.cache_timestamps = st.cache_timestamps)
    ∧ (∀ (st : ProviderState) (now : ℕ) (data : List (String × DFrame))
        (symbols : List String) (tf : String) (lim : ℕ),
      (st.cache.lookup (cacheKey symbols tf lim) = none ∨
        is_cache_valid st now (cacheKey symbols tf lim) = false) →
      (DataProvider_get_bars st now (Except.ok data) symbols tf lim
        true).clientCalled = true ∧
      (¬ data = [] →
        (DataProvider_get_bars st now (Except.ok data) symbols tf lim
          true).state.cache.lookup (cacheKey symbols tf lim) =
          some (data.map (fun p =>
            (p.1, if p.2.nrows = 0 then p.2 else clean_and_prepare_data p.2))) ∧
        (DataProvider_get_bars st now (Except.ok data) symbols tf lim
          true).state.cache_timestamps.lookup (cacheKey symbols tf lim) =
          some now)) := by
  constructor
  · intro st now cr symbols1 symbols2 tf lim v ts hperm hv hts hage
    have hkey : cacheKey symbols2 tf lim = cacheKey symbols1 tf lim :=
      cacheKey_perm hperm tf lim
    have hv2 : st.cache.lookup (cacheKey symbols2 tf lim) = some v := by
      rw [hkey]; exact hv
    have hts2 : st.cache_timestamps.lookup (cacheKey symbols2 tf lim)
        = some ts := by
      rw [hkey]; exact hts
    rw [get_bars_hit st now cr symbols2 tf lim v ts hv2 hts2 hage]
    exact ⟨rfl, rfl, rfl, rfl, rfl⟩
  · exact get_bars_store

/-- Witness for C8: a second fetch of the ["AAPL", "TSLA"] entry at age 100 s
with the symbols reversed hits the cache, and a fetch on an empty cache calls
the client and stores the entry with the fresh timestamp. -/
theorem C8_cache_ttl_witness :
    (DataProvider_get_bars demoProviderState 100 (Except.error ())
      ["TSLA", "AAPL"] "1Min" 100 true).result = [("AAPL", stdDupOut)] ∧
    (DataProvider_get_bars demoProviderState 100 (Except.error ())
      ["TSLA", "AAPL"] "1Min" 100 true).clientCalled = false ∧
    (DataProvider_get_bars demoProviderState 100 (Except.error ())
      ["TSLA", "AAPL"] "1Min" 100 true).state.stats.cache_hits =
      demoProviderState.stats.cache_hits + 1 ∧
    (DataProvider_get_bars emptyProviderState 7 (Except.ok [("AAPL", naiveDF)])
      ["AAPL"] "1Min" 100 true).clientCalled = true ∧
    (DataProvider_get_bars emptyProviderState 7 (Except.ok [("AAPL", naiveDF)])
      ["AAPL"] "1Min" 100 true).state.cache_timestamps.lookup
      (cacheKey ["AAPL"] "1Min" 100) = some 7 := by
  have h1 := C8_cache_ttl.1 demoProviderState 100 (Except.error ())
    ["AAPL", "TSLA"] ["TSLA", "AAPL"] "1Min" 100 [("AAPL", stdDupOut)] 0
    (List.Perm.swap "AAPL" "TSLA" [])
    (by simp [demoProviderState, List.lookup])
    (by simp [demoProviderState, List.lookup])
    (by decide)
  have h2 := C8_cache_ttl.2 emptyProviderState 7 [("AAPL", naiveDF)]
    ["AAPL"] "1Min" 100 (Or.inl rfl)
  exact ⟨h1.1, h1.2.1, h1.2.2.1, h2.1, (h2.2 (by decide)).2⟩

/-- C9: the cleanup path does not release the cache. `DataProvider.close`
invokes the async `clear_cache` without `await`, so the coroutine never runs
and the cache keeps its entries after `_cleanup` completes; `clear_cache_run`
shows what awaiting it would have done. -/
theorem C9_cleanup_leaves_cache :
    TradingBot_cleanup demoProviderState = demoProviderState ∧
    (TradingBot_cleanup demoProviderState).cache ≠ [] ∧
    (clear_cache_run demoProviderState).cache = [] := by
  refine ⟨rfl, ?_, rfl⟩
  exact List.cons_ne_nil _ _

theorem fallbacks_head (tf next : String) (rest : List String)
    (h : fallbacks tf = next :: rest) :
    chainIdx tf < chainIdx next ∧ chainIdx next ≤ 6 := by
  unfold fallbacks at h
  split_ifs at h with h1 h2 h3 h4 h5 h6
  · subst h1; injection h with hx _; subst hx; decide
  · subst h2; injection h with hx _; subst hx; decide
  · subst h3; injection h with hx _; subst hx; decide
  · subst h4; injection h with hx _; subst hx; decide
  · subst h5; injection h with hx _; subst hx; decide
  · subst h6; injection h with hx _; subst hx; decide

theorem tff_next (client : FetchClient) (symbol : String) (lb m : ℕ)
    (tf next : String) (rest : List String) (h : fallbacks tf = next :: rest) :
    try_timeframe_fallbacks client symbol lb tf m =
      MarketDataFetcher_get_bars client symbol lb next (some m) := by
  rw [try_timeframe_fallbacks.eq_def]
  split
  · rename_i heq
    rw [h] at heq
    exact absurd heq (by simp)
  · rename_i next2 rest2 heq
    rw [h] at heq
    injection heq with h1 _
    subst h1
    rfl

theorem tff_1D (client : FetchClient) (symbol : String) (lb m : ℕ) :
    try_timeframe_fallbacks client symbol lb "1D" m =
      if 100 < lb then
        MarketDataFetcher_get_bars client symbol (min 100 m) "1D" (some m)
      else ⟨none, []⟩ := by
  rw [try_timeframe_fallbacks.eq_def]
  split
  · by_cases hlb : 100 < lb
    · rw [if_pos ⟨rfl, hlb⟩, if_pos hlb]
    · rw [if_neg (fun hc => hlb hc.2), if_neg hlb]
  · rename_i next rest heq
    exact absurd ((show fallbacks "1D" = [] from rfl).symm.trans heq) (by simp)

theorem get_bars_fail_step (symbol : String) (lb : ℕ) (tf : String)
    (m? : Option ℕ) :
    MarketDataFetcher_get_bars oracleFail symbol lb tf m? =
      ⟨(try_timeframe_fallbacks oracleFail symbol lb tf
          (effMinRequired m? lb)).result,
        tf :: (try_timeframe_fallbacks oracleFail symbol lb tf
          (effMinRequired m? lb)).attempted⟩ := by
  rw [MarketDataFetcher_get_bars.eq_def]
  rfl

theorem trace_step (symbol : String) (lb : ℕ) (m? : Option ℕ)
    (tf next : String) (rest : List String) (h : fallbacks tf = next :: rest) :
    (MarketDataFetcher_get_bars oracleFail symbol lb tf m?).attempted =
      tf :: (MarketDataFetcher_get_bars oracleFail symbol lb next
        (some (effMinRequired m? lb))).attempted := by
  rw [get_bars_fail_step,
    tff_next oracleFail symbol lb (effMinRequired m? lb) tf next rest h]

theorem trace_1D (symbol : String) (lb : ℕ) (m? : Option ℕ) :
    (MarketDataFetcher_get_bars oracleFail symbol lb "1D" m?).attempted =
      "1D" :: (if 100 < lb then ["1D"] else []) := by
  rw [get_bars_fail_step, tff_1D]
  by_cases hlb : 100 < lb
  · rw [if_pos hlb, if_pos hlb, get_bars_fail_step, tff_1D,
      if_neg (by omega : ¬ 100 <
        min 100 (effMinRequired m? lb))]
  · rw [if_neg hlb, if_neg hlb]

theorem trace_1H (symbol : String) (lb : ℕ) (m? : Option ℕ) :
    (MarketDataFetcher_get_bars oracleFail symbol lb "1H" m?).attempted =
      ["1H", "1D"] ++ (if 100 < lb then ["1D"] else []) := by
  rw [trace_step symbol lb m? "1H" "1D" [] rfl, trace_1D]
  rfl

theorem trace_30Min (symbol : String) (lb : ℕ) (m? : Option ℕ) :
    (MarketDataFetcher_get_bars oracleFail symbol lb "30Min" m?).attempted =
      ["30Min", "1H", "1D"] ++ (if 100 < lb then ["1D"] else []) := by
  rw [trace_step symbol lb m? "30Min" "1H" ["1D"] rfl, trace_1H]
  rfl

theorem trace_15Min (symbol : String) (lb : ℕ) (m? : Option ℕ) :
    (MarketDataFetcher_get_bars oracleFail symbol lb "15Min" m?).attempted =
      ["15Min", "30Min", "1H", "1D"] ++ (if 100 < lb then ["1D"] else []) := by
  rw [trace_step symbol lb m? "15Min" "30Min" ["1H", "1D"] rfl, trace_30Min]
  rfl

theorem trace_5Min (symbol : String) (lb : ℕ) (m? : Option ℕ) :
    (MarketDataFetcher_get_bars oracleFail symbol lb "5Min" m?).attempted =
      ["5Min", "15Min", "30Min", "1H", "1D"] ++
        (if 100 < lb then ["1D"] else []) := by
  rw [trace_step symbol lb m? "5Min" "15Min" ["1H", "1D"] rfl, trace_15Min]
  rfl

theorem trace_2Min (symbol : String) (lb : ℕ) (m? : Option ℕ) :
    (MarketDataFetcher_get_bars oracleFail symbol lb "2Min" m?).attempted =
      ["2Min", "5Min", "15Min", "30Min", "1H", "1D"] ++
        (if 100 < lb then ["1D"] else []) := by
  rw [trace_step symbol lb m? "2Min" "5Min" ["15Min", "1H", "1D"] rfl,
    trace_5Min]
  rfl

theorem trace_1Min (symbol : String) (lb : ℕ) (m? : Option ℕ) :
    (MarketDataFetcher_get_bars oracleFail symbol lb "1Min" m?).attempted =
      chainList ++ (if 100 < lb then ["1D"] else []) := by
  rw [trace_step symbol lb m? "1Min" "2Min" ["5Min", "15Min", "1H", "1D"] rfl,
    trace_2Min]
  rfl

theorem attempted_len_bound :
    ∀ (n : ℕ) (client : FetchClient) (symbol : String) (lb : ℕ) (tf : String)
      (m? : Option ℕ), 2 * fetchWeight lb tf + 1 ≤ n →
      (MarketDataFetcher_get_bars client symbol lb tf m?).attempted.length ≤
        (7 - chainIdx tf) + 1 + (if 100 < lb then 1 else 0) := by
  intro n
  induction n with
  | zero => intro client symbol lb tf m? hn; omega
  | succ n ih =>
    intro client symbol lb tf m? hn
    rw [MarketDataFetcher_get_bars.eq_def]
    dsimp only
    cases htry :
        tryFeedList client symbol lb tf (effMinRequired m? lb) feedsToTry with
    | some df =>
      dsimp only
      simp only [List.length_cons, List.length_nil]
      split <;> omega
    | none =>
      dsimp only
      simp only [List.length_cons]
      rw [try_timeframe_fallbacks.eq_def]
      split
      · split_ifs with hcond
        · obtain ⟨htf, hlb⟩ := hcond
          subst htf
          have h6 : chainIdx "1D" = 6 := by decide
          have hflagn : ¬ 100 < min 100 (effMinRequired m? lb) := by omega
          have hmeas : 2 * fetchWeight (min 100 (effMinRequired m? lb)) "1D"
              + 1 ≤ n := by
            simp only [fetchWeight, h6] at hn ⊢
            rw [if_pos hlb] at hn
            rw [if_neg hflagn]
            omega
          have hrec := ih client symbol (min 100 (effMinRequired m? lb)) "1D"
            (some (effMinRequired m? lb)) hmeas
          rw [if_neg hflagn] at hrec
          omega
        · exact absurd hcond.2 ‹¬ 100 < lb›
        · show 0 + 1 ≤ 7 - chainIdx tf + 1 + 1
          omega
        · show 0 + 1 ≤ 7 - chainIdx tf + 1 + 0
          omega
      · rename_i next rest heq
        have hh := fallbacks_head tf next rest heq
        have hmeas : 2 * fetchWeight lb next + 1 ≤ n := by
          simp only [fetchWeight] at hn ⊢
          omega
        have hrec := ih client symbol lb next (some (effMinRequired m? lb))
          hmeas
        omega

/-- C2: whenever every feed at a timeframe fails to meet the minimum and the
timeframe has a fallback entry, the next recursive attempt uses exactly the
head of that entry — the next coarser timeframe of the fixed chain
1Min → 2Min → 5Min → 15Min → 30Min → 1H → 1D; the recursive sequence of
attempted timeframes starting from 1Min (under an always-failing client)
visits every element of that chain in order; and 1D has no further timeframe
fallback. -/
theorem C2_fallback_chain :
    (∀ (client : FetchClient) (symbol : String) (lb m : ℕ) (tf next : String)
        (rest : List String), fallbacks tf = next :: rest →
      try_timeframe_fallbacks client symbol lb tf m =
        MarketDataFetcher_get_bars client symbol lb next (some m))
    ∧ ((fallbacks "1Min").head? = some "2Min" ∧
        (fallbacks "2Min").head? = some "5Min" ∧
        (fallbacks "5Min").head? = some "15Min" ∧
        (fallbacks "15Min").head? = some "30Min" ∧
        (fallbacks "30Min").head? = some "1H" ∧
        (fallbacks "1H").head? = some "1D" ∧
        fallbacks "1D" = [])
    ∧ (∀ (symbol : String) (lb : ℕ) (m? : Option ℕ),
      (MarketDataFetcher_get_bars oracleFail symbol lb "1Min" m?).attempted =
        chainList ++ (if 100 < lb then ["1D"] else [])) := by
  refine ⟨?_, by decide, trace_1Min⟩
  intro client symbol lb m tf next rest h
  exact tff_next client symbol lb m tf next rest h

/-- Witness for C2: with every feed failing, a 50-bar 1-minute request walks
the whole chain exactly once, and the first fallback from 1Min goes to
2Min. -/
theorem C2_fallback_chain_witness :
    (MarketDataFetcher_get_bars oracleFail "AAPL" 50 "1Min" none).attempted =
      ["1Min", "2Min", "5Min", "15Min", "30Min", "1H", "1D"] ∧
    try_timeframe_fallbacks oracleFail "AAPL" 50 "1Min" 50 =
      MarketDataFetcher_get_bars oracleFail "AAPL" 50 "2Min" (some 50) := by
  constructor
  · rw [C2_fallback_chain.2.2 "AAPL" 50 none, if_neg (by omega)]
    rfl
  · exact C2_fallback_chain.1 oracleFail "AAPL" 50 50 "1Min" "2Min"
      ["5Min", "15Min", "1H", "1D"] rfl

/-- C10: the fetcher terminates — every timeframe fallback moves strictly down
the finite degradation chain ending at 1D (so at most 7 timeframes are ever
attempted), the daily reduced-size retry is triggered only when the lookback
exceeds 100 and recurses with a lookback of at most 100 (so it can fire at
most once), and in total any call attempts at most 9 timeframes. -/
theorem C10_fetcher_terminates :
    (∀ (tf next : String) (rest : List String), fallbacks tf = next :: rest →
      chainIdx tf < chainIdx next ∧ chainIdx next ≤ 6)
    ∧ (∀ (client : FetchClient) (symbol : String) (lb : ℕ) (tf : String)
        (m? : Option ℕ),
      (MarketDataFetcher_get_bars client symbol lb tf m?).attempted.length ≤ 9)
    ∧ (∀ (client : FetchClient) (symbol : String) (lb m : ℕ), ¬ 100 < lb →
      try_timeframe_fallbacks client symbol lb "1D" m = ⟨none, []⟩)
    ∧ (∀ (client : FetchClient) (symbol : String) (lb m : ℕ), 100 < lb →
      try_timeframe_fallbacks client symbol lb "1D" m =
        MarketDataFetcher_get_bars client symbol (min 100 m) "1D" (some m) ∧
      min 100 m ≤ 100) := by
  refine ⟨fallbacks_head, ?_, ?_, ?_⟩
  · intro client symbol lb tf m?
    have h := attempted_len_bound (2 * fetchWeight lb tf + 1) client symbol lb
      tf m? (le_refl _)
    have h2 : (7 - chainIdx tf) + 1 + (if 100 < lb then 1 else 0) ≤ 9 := by
      split <;> omega
    omega
  · intro client symbol lb m hlb
    rw [tff_1D, if_neg hlb]
  · intro client symbol lb m hlb
    rw [tff_1D, if_pos hlb]
    exact ⟨rfl, by omega⟩

/-- Witness for C10: concrete instances — the 1Min fallback steps down the
chain, a 200-bar always-failing 1-minute fetch attempts 8 timeframes (the
7-element chain plus one daily retry), and with a 50-bar lookback the daily
timeframe gives up without a retry. -/
theorem C10_fetcher_terminates_witness :
    (chainIdx "1Min" < chainIdx "2Min" ∧ chainIdx "2Min" ≤ 6) ∧
    (MarketDataFetcher_get_bars oracleFail "AAPL" 200 "1Min"
      none).attempted.length ≤ 9 ∧
    try_timeframe_fallbacks oracleFail "AAPL" 50 "1D" 50 = ⟨none, []⟩ ∧
    min 100 150 ≤ 100 :=
  ⟨C10_fetcher_terminates.1 "1Min" "2Min" ["5Min", "15Min", "1H", "1D"] rfl,
   C10_fetcher_terminates.2.1 oracleFail "AAPL" 200 "1Min" none,
   C10_fetcher_terminates.2.2.1 oracleFail "AAPL" 50 50 (by omega),
   (C10_fetcher_terminates.2.2.2 oracleFail "AAPL" 200 150 (by omega)).2⟩
